import Mathlib

/-!
Verification of the orientation / view-frame subsystem and the wheel
definition tooling of the aphrodite-shared package.

The TypeScript sources are embedded shallowly: JavaScript numbers are
modelled as rationals (ℚ), JavaScript `undefined` as `Option.none`, and a
computation whose JavaScript counterpart produces `NaN` or throws is
modelled as an `Option`/`Except` failure.  Strings are Lean strings; the
few places where JavaScript renders a number into a string are modelled by
an injective decimal renderer that agrees with JavaScript on the integral
values this development evaluates.
-/

namespace Aphrodite

/-! ## Angle math (src/unnamed/part_003, normalizeDeg) -/

/-- Truncation toward zero, the rounding mode of the JavaScript `%`
operator on its quotient. -/
def ratTrunc (q : ℚ) : ℤ :=
  if 0 ≤ q then ⌊q⌋ else ⌈q⌉

/-- The JavaScript remainder operator `a % b`: remainder of the division
of `a` by `b` with the quotient truncated toward zero. -/
def jsMod (a b : ℚ) : ℚ :=
  a - b * ratTrunc (a / b)

/-- `normalizeDeg` from the orientation utilities:
`let normalized = degrees % 360; if (normalized < 0) normalized += 360;`. -/
def normalizeDeg (degrees : ℚ) : ℚ :=
  let normalized := jsMod degrees 360
  if normalized < 0 then normalized + 360 else normalized

theorem normalizeDeg_eq_floor (d : ℚ) :
    normalizeDeg d = d - 360 * ⌊d / 360⌋ := by
  unfold normalizeDeg jsMod ratTrunc
  by_cases h : 0 ≤ d / 360
  · have hf : (⌊d / 360⌋ : ℚ) ≤ d / 360 := Int.floor_le _
    have hge : 0 ≤ d - 360 * (⌊d / 360⌋ : ℚ) := by nlinarith
    simp only [h, if_true]
    rw [if_neg (by linarith)]
  · push_neg at h
    simp only [not_le.mpr h, if_false]
    set c : ℤ := ⌈d / 360⌉ with hc
    set f : ℤ := ⌊d / 360⌋ with hf
    have h1 : (f : ℚ) ≤ d / 360 := Int.floor_le _
    have h2 : d / 360 ≤ (c : ℚ) := Int.le_ceil _
    have hc1 : c ≤ f + 1 := Int.ceil_le_floor_add_one _
    by_cases hr : d - 360 * (c : ℚ) < 0
    · have h3 : d / 360 < (c : ℚ) := by nlinarith
      have hfc : f < c := by exact_mod_cast lt_of_le_of_lt h1 h3
      have hcf : c = f + 1 := by omega
      rw [if_pos hr, hcf]
      push_cast
      ring
    · push_neg at hr
      have h4 : (c : ℚ) ≤ d / 360 := by nlinarith
      have h5 : (c : ℚ) = d / 360 := le_antisymm h4 h2
      have h6 : f = c := by
        rw [hf, ← h5, Int.floor_intCast]
      have h7 : d - 360 * (c : ℚ) = 0 := by
        rw [h5]; ring_nf
      rw [if_neg (by rw [h7]; exact lt_irrefl 0), h6]

/-- Two angles are equivalent when they differ by an integer multiple of
360 degrees. -/
def AngEquiv (a b : ℚ) : Prop :=
  ∃ k : ℤ, a - b = 360 * k

theorem AngEquiv.refl (a : ℚ) : AngEquiv a a := ⟨0, by ring⟩

theorem AngEquiv.symm {a b : ℚ} (h : AngEquiv a b) : AngEquiv b a := by
  obtain ⟨k, hk⟩ := h
  exact ⟨-k, by push_cast; linarith⟩

theorem AngEquiv.trans {a b c : ℚ} (h1 : AngEquiv a b) (h2 : AngEquiv b c) :
    AngEquiv a c := by
  obtain ⟨k, hk⟩ := h1
  obtain ⟨m, hm⟩ := h2
  exact ⟨k + m, by push_cast; linarith⟩

theorem AngEquiv.add_left (a : ℚ) {b c : ℚ} (h : AngEquiv b c) :
    AngEquiv (a + b) (a + c) := by
  obtain ⟨k, hk⟩ := h
  exact ⟨k, by linarith⟩

theorem AngEquiv.neg {a b : ℚ} (h : AngEquiv a b) : AngEquiv (-a) (-b) := by
  obtain ⟨k, hk⟩ := h
  exact ⟨-k, by push_cast; linarith⟩

theorem AngEquiv.sub_right {a b : ℚ} (c : ℚ) (h : AngEquiv a b) :
    AngEquiv (a - c) (b - c) := by
  obtain ⟨k, hk⟩ := h
  exact ⟨k, by linarith⟩

theorem AngEquiv.add_int_mul (a : ℚ) (k : ℤ) : AngEquiv (a + 360 * k) a :=
  ⟨k, by ring⟩

theorem normalizeDeg_equiv (d : ℚ) : AngEquiv (normalizeDeg d) d := by
  rw [normalizeDeg_eq_floor]
  exact ⟨-⌊d / 360⌋, by push_cast; ring⟩

theorem normalizeDeg_nonneg (d : ℚ) : 0 ≤ normalizeDeg d := by
  rw [normalizeDeg_eq_floor]
  have h := Int.floor_le (d / 360)
  nlinarith

theorem normalizeDeg_lt (d : ℚ) : normalizeDeg d < 360 := by
  rw [normalizeDeg_eq_floor]
  have h := Int.lt_floor_add_one (d / 360)
  nlinarith

theorem normalizeDeg_eq_self {d : ℚ} (h0 : 0 ≤ d) (h1 : d < 360) :
    normalizeDeg d = d := by
  rw [normalizeDeg_eq_floor]
  have hf : ⌊d / 360⌋ = 0 := by
    rw [Int.floor_eq_zero_iff, Set.mem_Ico]
    constructor
    · positivity
    · rw [div_lt_one (by norm_num)]; linarith
  rw [hf]
  push_cast
  ring

/-- Modulo-360 equivalent values that both lie in a window of width
strictly less than 360 are equal. -/
theorem AngEquiv.eq_of_abs_lt {a b : ℚ} (h : AngEquiv a b)
    (habs : |a - b| < 360) : a = b := by
  obtain ⟨k, hk⟩ := h
  have hk0 : k = 0 := by
    rw [hk] at habs
    rw [abs_lt] at habs
    have h1 : -1 < (k : ℚ) := by linarith
    have h2 : (k : ℚ) < 1 := by linarith
    have h3 : (-1 : ℤ) < k := by exact_mod_cast h1
    have h4 : k < 1 := by exact_mod_cast h2
    omega
  rw [hk0] at hk
  push_cast at hk
  linarith

theorem AngEquiv.eq_of_mem_Ico {a b : ℚ} (h : AngEquiv a b)
    (ha0 : 0 ≤ a) (ha1 : a < 360) (hb0 : 0 ≤ b) (hb1 : b < 360) : a = b :=
  h.eq_of_abs_lt (abs_sub_lt_iff.mpr ⟨by linarith, by linarith⟩)

theorem normalizeDeg_normalizeDeg (d : ℚ) :
    normalizeDeg (normalizeDeg d) = normalizeDeg d :=
  normalizeDeg_eq_self (normalizeDeg_nonneg d) (normalizeDeg_lt d)

/-- C6: for every rational x, normalizeDeg x lies in [0, 360) and
normalizeDeg is idempotent. -/
theorem normalizeDeg_range_and_idempotent (x : ℚ) :
    0 ≤ normalizeDeg x ∧ normalizeDeg x < 360 ∧
      normalizeDeg (normalizeDeg x) = normalizeDeg x :=
  ⟨normalizeDeg_nonneg x, normalizeDeg_lt x, normalizeDeg_normalizeDeg x⟩

/-! ## Orientation types (src/unnamed/part_002, orientation/types) -/

inductive ReferenceFrame
  | ecliptic | houses | signs | angles
deriving DecidableEq, Fintype

inductive AngleType
  | ASC | DESC | MC | IC
deriving DecidableEq, Fintype

/-- AstroObjectId = number | string. -/
inductive AstroObjectId
  | num (n : ℤ)
  | str (s : String)
deriving DecidableEq

inductive AnchorTargetUnion
  | object (id : AstroObjectId)
  | house (index : ℕ)
  | sign (index : ℕ)
  | angle (type : AngleType)
deriving DecidableEq

/-- The runtime values of the ViewFrame direction field: the legacy model
uses the strings cw and ccw, the zero-point model the numbers 1 and -1
(`pos` and `neg` here, matching the declared TypeScript type 1 | -1). -/
inductive Direction
  | cw | ccw | pos | neg
deriving DecidableEq, Fintype

structure ViewFrame where
  referenceFrame : ReferenceFrame
  anchor : AnchorTargetUnion
  screenAngleDeg : Option ℚ
  direction : Option Direction
  radialFlip : Option Bool := none
  angularFlip : Option Bool := none
  worldZero : Option ℚ := none
  screenZero : Option ℚ := none
  scale : Option ℚ := none
deriving DecidableEq

/-- Numeric value of the direction field in the zero-point branch, where
the code destructures `const { direction = 1 } = viewFrame` and then
multiplies by it.  A string value (cw / ccw) yields NaN in that
multiplication, modelled as `none`. -/
def dirNum : Option Direction → Option ℚ
  | none => some 1
  | some Direction.pos => some 1
  | some Direction.neg => some (-1)
  | some _ => none

/-! ## View-frame transforms (src/unnamed/part_003, lines 333-423) -/

/-- `while (offset > 180) offset -= 360;`. -/
def wrapDown (x : ℚ) : ℚ :=
  if h : 180 < x then wrapDown (x - 360) else x
termination_by (⌈(x - 180) / 360⌉).toNat
decreasing_by
  have h1 : (0:ℚ) < (x - 180) / 360 := div_pos (by linarith) (by norm_num)
  have h2 : 0 < ⌈(x - 180) / 360⌉ := Int.ceil_pos.mpr h1
  have h3 : ⌈(x - 360 - 180) / 360⌉ = ⌈(x - 180) / 360⌉ - 1 := by
    have he : (x - 360 - 180) / 360 = (x - 180) / 360 - 1 := by ring
    rw [he, Int.ceil_sub_one]
  rw [h3]; omega

/-- `while (offset < -180) offset += 360;`. -/
def wrapUp (x : ℚ) : ℚ :=
  if h : x < -180 then wrapUp (x + 360) else x
termination_by (⌈(-180 - x) / 360⌉).toNat
decreasing_by
  have h1 : (0:ℚ) < (-180 - x) / 360 := div_pos (by linarith) (by norm_num)
  have h2 : 0 < ⌈(-180 - x) / 360⌉ := Int.ceil_pos.mpr h1
  have h3 : ⌈(-180 - (x + 360)) / 360⌉ = ⌈(-180 - x) / 360⌉ - 1 := by
    have he : (-180 - (x + 360)) / 360 = (-180 - x) / 360 - 1 := by ring
    rw [he, Int.ceil_sub_one]
  rw [h3]; omega

theorem wrapDown_step {x : ℚ} (h : 180 < x) :
    wrapDown x = wrapDown (x - 360) := by
  rw [wrapDown]; rw [dif_pos h]

theorem wrapDown_eq_of_le {x : ℚ} (h : x ≤ 180) : wrapDown x = x := by
  rw [wrapDown]; rw [dif_neg (not_lt.mpr h)]

theorem wrapUp_step {x : ℚ} (h : x < -180) : wrapUp x = wrapUp (x + 360) := by
  rw [wrapUp]; rw [dif_pos h]

theorem wrapUp_eq_of_ge {x : ℚ} (h : -180 ≤ x) : wrapUp x = x := by
  rw [wrapUp]; rw [dif_neg (not_lt.mpr h)]

theorem wrapDown_equiv (x : ℚ) : AngEquiv (wrapDown x) x := by
  induction x using wrapDown.induct with
  | case1 x h ih =>
      rw [wrapDown_step h]
      exact ih.trans ⟨-1, by push_cast; ring⟩
  | case2 x h =>
      rw [wrapDown_eq_of_le (not_lt.mp h)]
      exact AngEquiv.refl x

theorem wrapUp_equiv (x : ℚ) : AngEquiv (wrapUp x) x := by
  induction x using wrapUp.induct with
  | case1 x h ih =>
      rw [wrapUp_step h]
      exact ih.trans ⟨1, by push_cast; ring⟩
  | case2 x h =>
      rw [wrapUp_eq_of_ge (not_lt.mp h)]
      exact AngEquiv.refl x

/-- `worldToScreenAngle` (part_003 lines 333-375), with `none` for the NaN
outcomes (string direction inside the zero-point arithmetic, or a missing
screenAngleDeg in the legacy branch). -/
def worldToScreenAngle (worldLongitude : ℚ) (viewFrame : ViewFrame)
    (anchorLongitude : ℚ) : Option ℚ :=
  match viewFrame.worldZero, viewFrame.screenZero with
  | some worldZero, some screenZero =>
    let scale := viewFrame.scale.getD 1
    match dirNum viewFrame.direction with
    | none => none
    | some direction =>
      let delta := normalizeDeg (worldLongitude - worldZero)
      let d1 := if delta > 180 then delta - 360 else delta
      let d2 := if d1 < -180 then d1 + 360 else d1
      some (normalizeDeg (screenZero + direction * d2 * scale))
  | _, _ =>
    match viewFrame.screenAngleDeg with
    | none => none
    | some screenAngleDeg =>
      let offset := wrapUp (wrapDown (worldLongitude - anchorLongitude))
      let offset2 :=
        if viewFrame.direction = some Direction.ccw then -offset else offset
      let screenAngle := screenAngleDeg + offset2
      let screenAngle2 :=
        if viewFrame.angularFlip.getD false then
          screenAngleDeg - (screenAngle - screenAngleDeg)
        else screenAngle
      some (normalizeDeg screenAngle2)

/-- `screenToWorldLongitude` (part_003 lines 382-423).  In the zero-point
branch a zero scale divides to Infinity and normalizes to NaN, modelled as
`none`. -/
def screenToWorldLongitude (screenAngle : ℚ) (viewFrame : ViewFrame)
    (anchorLongitude : ℚ) : Option ℚ :=
  match viewFrame.worldZero, viewFrame.screenZero with
  | some worldZero, some screenZero =>
    let scale := viewFrame.scale.getD 1
    match dirNum viewFrame.direction with
    | none => none
    | some direction =>
      if scale = 0 then none
      else
        let normalizedScreen := normalizeDeg screenAngle
        let delta := normalizedScreen - screenZero
        let d1 := if delta > 180 then delta - 360 else delta
        let d2 := if d1 < -180 then d1 + 360 else d1
        some (normalizeDeg (worldZero + d2 / scale * direction))
  | _, _ =>
    match viewFrame.screenAngleDeg with
    | none => none
    | some screenAngleDeg =>
      let normalizedScreen := normalizeDeg screenAngle
      let offset := wrapUp (wrapDown (normalizedScreen - screenAngleDeg))
      let offset2 :=
        if viewFrame.angularFlip.getD false then -offset else offset
      let offset3 :=
        if viewFrame.direction = some Direction.ccw then -offset2 else offset2
      some (normalizeDeg (anchorLongitude + offset3))

/-- Modelled from the spec (section 4.1): shortestDelta(a, b) folds a − b
to the shortest signed angular path, with result in (-180, 180].  The
source has no standalone shortestDelta function; the transforms inline
it, and the spec states transform laws in terms of it. -/
def shortestDelta (a b : ℚ) : ℚ :=
  (a - b) - 360 * ⌈(a - b - 180) / 360⌉

theorem shortestDelta_equiv (a b : ℚ) :
    AngEquiv (shortestDelta a b) (a - b) :=
  ⟨-⌈(a - b - 180) / 360⌉, by unfold shortestDelta; push_cast; ring⟩

theorem shortestDelta_le (a b : ℚ) : shortestDelta a b ≤ 180 := by
  unfold shortestDelta
  have h : (a - b - 180) / 360 ≤ (⌈(a - b - 180) / 360⌉ : ℚ) := Int.le_ceil _
  nlinarith

theorem shortestDelta_gt (a b : ℚ) : -180 < shortestDelta a b := by
  unfold shortestDelta
  have h := Int.ceil_lt_add_one ((a - b - 180) / 360)
  nlinarith

/-! ## Characterizations of the two transform branches -/

/-- The value the legacy branch of worldToScreenAngle normalizes: apply
direction, add to screenAngleDeg, optionally reflect about it. -/
def legacyScreen (screenAngleDeg : ℚ) (d : Option Direction) (af : Option Bool)
    (offset : ℚ) : ℚ :=
  let offset2 := if d = some Direction.ccw then -offset else offset
  let screenAngle := screenAngleDeg + offset2
  if af.getD false then screenAngleDeg - (screenAngle - screenAngleDeg)
  else screenAngle

/-- The offset the legacy branch of screenToWorldLongitude adds to the
anchor longitude. -/
def legacyOffset (screenAngleDeg : ℚ) (d : Option Direction) (af : Option Bool)
    (normalizedScreen : ℚ) : ℚ :=
  let offset := wrapUp (wrapDown (normalizedScreen - screenAngleDeg))
  let offset2 := if af.getD false then -offset else offset
  if d = some Direction.ccw then -offset2 else offset2

theorem worldToScreenAngle_legacy (rf : ReferenceFrame)
    (anch : AnchorTargetUnion) (sAD L a : ℚ) (d : Option Direction)
    (rflip af : Option Bool) :
    worldToScreenAngle L ⟨rf, anch, some sAD, d, rflip, af, none, none, none⟩ a
      = some (normalizeDeg
          (legacyScreen sAD d af (wrapUp (wrapDown (L - a))))) := rfl

theorem screenToWorldLongitude_legacy (rf : ReferenceFrame)
    (anch : AnchorTargetUnion) (sAD s a : ℚ) (d : Option Direction)
    (rflip af : Option Bool) :
    screenToWorldLongitude s ⟨rf, anch, some sAD, d, rflip, af, none, none, none⟩ a
      = some (normalizeDeg
          (a + legacyOffset sAD d af (normalizeDeg s))) := rfl

theorem wrap_equiv (x : ℚ) : AngEquiv (wrapUp (wrapDown x)) x :=
  (wrapUp_equiv (wrapDown x)).trans (wrapDown_equiv x)

/-- The two single `if` adjustments both zero-point branches apply to
bring a delta toward the -180..180 range. -/
def narrowIf (x : ℚ) : ℚ :=
  let d1 := if x > 180 then x - 360 else x
  if d1 < -180 then d1 + 360 else d1

theorem narrowIf_equiv (x : ℚ) : AngEquiv (narrowIf x) x := by
  unfold narrowIf
  by_cases h1 : x > 180
  · rw [if_pos h1]
    by_cases h2 : x - 360 < -180
    · rw [if_pos h2]; exact ⟨0, by push_cast; ring⟩
    · rw [if_neg h2]; exact ⟨-1, by push_cast; ring⟩
  · rw [if_neg h1]
    by_cases h2 : x < -180
    · rw [if_pos h2]; exact ⟨1, by push_cast; ring⟩
    · rw [if_neg h2]; exact AngEquiv.refl x

/-- On a freshly normalized difference the two single ifs compute exactly
the shortest signed delta of the spec. -/
theorem narrowIf_normalizeDeg (x y : ℚ) :
    narrowIf (normalizeDeg (x - y)) = shortestDelta x y := by
  have h0 : 0 ≤ normalizeDeg (x - y) := normalizeDeg_nonneg _
  have h1 : normalizeDeg (x - y) < 360 := normalizeDeg_lt _
  have heq : AngEquiv (narrowIf (normalizeDeg (x - y))) (shortestDelta x y) :=
    ((narrowIf_equiv _).trans (normalizeDeg_equiv _)).trans
      (shortestDelta_equiv x y).symm
  have hle : narrowIf (normalizeDeg (x - y)) ≤ 180 := by
    unfold narrowIf
    by_cases hgt : normalizeDeg (x - y) > 180
    · rw [if_pos hgt, if_neg (by push_neg; linarith)]; linarith
    · push_neg at hgt
      rw [if_neg (not_lt.mpr hgt)]
      rw [if_neg (show ¬ normalizeDeg (x - y) < -180 by push_neg; linarith)]
      exact hgt
  have hgt : -180 < narrowIf (normalizeDeg (x - y)) := by
    unfold narrowIf
    by_cases hgt2 : normalizeDeg (x - y) > 180
    · rw [if_pos hgt2, if_neg (by push_neg; linarith)]; linarith
    · push_neg at hgt2
      rw [if_neg (not_lt.mpr hgt2)]
      rw [if_neg (show ¬ normalizeDeg (x - y) < -180 by push_neg; linarith)]
      linarith
  refine heq.eq_of_abs_lt ?_
  have h2 := shortestDelta_le x y
  have h3 := shortestDelta_gt x y
  rw [abs_sub_lt_iff]
  constructor <;> linarith

theorem worldToScreenAngle_zero (rf : ReferenceFrame)
    (anch : AnchorTargetUnion) (sAD : Option ℚ) (rflip aflip : Option Bool)
    (L wz sz a dv : ℚ) (d : Option Direction) (sc : Option ℚ)
    (hd : dirNum d = some dv) :
    worldToScreenAngle L ⟨rf, anch, sAD, d, rflip, aflip, some wz, some sz, sc⟩ a
      = some (normalizeDeg
          (sz + dv * narrowIf (normalizeDeg (L - wz)) * sc.getD 1)) := by
  simp only [worldToScreenAngle, hd]
  rfl

theorem screenToWorldLongitude_zero (rf : ReferenceFrame)
    (anch : AnchorTargetUnion) (sAD : Option ℚ) (rflip aflip : Option Bool)
    (s wz sz a dv : ℚ) (d : Option Direction) (sc : Option ℚ)
    (hd : dirNum d = some dv) (hsc : ¬ sc.getD 1 = 0) :
    screenToWorldLongitude s ⟨rf, anch, sAD, d, rflip, aflip, some wz, some sz, sc⟩ a
      = some (normalizeDeg
          (wz + narrowIf (normalizeDeg s - sz) / sc.getD 1 * dv)) := by
  simp only [screenToWorldLongitude, hd, if_neg hsc]
  rfl

/-- The inverse legacy offset undoes the forward legacy screen placement
modulo full turns. -/
theorem legacyOffset_inverts (sAD : ℚ) (d : Option Direction)
    (af : Option Bool) {ns o : ℚ}
    (h : AngEquiv ns (legacyScreen sAD d af o)) :
    AngEquiv (legacyOffset sAD d af ns) o := by
  unfold legacyScreen at h
  unfold legacyOffset
  obtain ⟨i, hi⟩ := wrap_equiv (ns - sAD)
  by_cases hc : d = some Direction.ccw <;> by_cases haf : af.getD false = true
  · simp only [hc, haf, if_true, reduceIte, neg_neg] at h ⊢
    obtain ⟨k, hk⟩ := h
    exact ⟨i + k, by push_cast; linarith⟩
  · simp only [hc, haf, if_true, if_false, reduceIte, Bool.false_eq_true] at h ⊢
    obtain ⟨k, hk⟩ := h
    exact ⟨-(i + k), by push_cast; linarith⟩
  · simp only [hc, haf, if_true, if_false, reduceIte, Bool.false_eq_true] at h ⊢
    obtain ⟨k, hk⟩ := h
    exact ⟨-(i + k), by push_cast; linarith⟩
  · simp only [hc, haf, if_true, if_false, reduceIte, Bool.false_eq_true] at h ⊢
    obtain ⟨k, hk⟩ := h
    exact ⟨i + k, by push_cast; linarith⟩

/-- When dv is 1 or -1, a modulo-360 equivalence survives multiplication
by dv. -/
theorem AngEquiv.mul_pm {x y dv : ℚ} (hdv : dv = 1 ∨ dv = -1)
    (h : AngEquiv x y) : AngEquiv (x * dv) (y * dv) := by
  obtain ⟨k, hk⟩ := h
  rcases hdv with rfl | rfl
  · exact ⟨k, by linarith⟩
  · exact ⟨-k, by push_cast; linarith⟩

/-- C1: round-trip identity of the forward and inverse view-frame
transforms, over exact rational arithmetic.  First conjunct: the legacy
anchor-relative model, for every worldLongitude in [0,360), every
direction in (cw, ccw), every angularFlip, every anchorLongitude and
every screenAngleDeg.  Second conjunct: the zero-point model, for every
numeric direction (defaulted or plus/minus one) and defaulted scale. -/
theorem transform_roundtrip :
    (∀ (rf : ReferenceFrame) (anch : AnchorTargetUnion) (rflip : Option Bool)
        (L a sAD : ℚ) (d : Direction) (af : Bool),
        d = Direction.cw ∨ d = Direction.ccw → 0 ≤ L → L < 360 →
        (worldToScreenAngle L
              ⟨rf, anch, some sAD, some d, rflip, some af, none, none, none⟩ a).bind
            (fun s => screenToWorldLongitude s
              ⟨rf, anch, some sAD, some d, rflip, some af, none, none, none⟩ a)
          = some L)
    ∧ (∀ (rf : ReferenceFrame) (anch : AnchorTargetUnion) (sAD : Option ℚ)
        (rflip aflip : Option Bool) (L a wz sz : ℚ) (d : Option Direction)
        (sc : Option ℚ),
        (dirNum d = some 1 ∨ dirNum d = some (-1)) →
        (sc = none ∨ sc = some 1) → 0 ≤ L → L < 360 →
        (worldToScreenAngle L
              ⟨rf, anch, sAD, d, rflip, aflip, some wz, some sz, sc⟩ a).bind
            (fun s => screenToWorldLongitude s
              ⟨rf, anch, sAD, d, rflip, aflip, some wz, some sz, sc⟩ a)
          = some L) := by
  constructor
  · intro rf anch rflip L a sAD d af _hd hL0 hL1
    rw [worldToScreenAngle_legacy, Option.some_bind, screenToWorldLongitude_legacy,
      normalizeDeg_normalizeDeg]
    have h1 := normalizeDeg_equiv
      (legacyScreen sAD (some d) (some af) (wrapUp (wrapDown (L - a))))
    have h2 := legacyOffset_inverts sAD (some d) (some af) h1
    have h3 := AngEquiv.add_left a (h2.trans (wrap_equiv (L - a)))
    have h4 : a + (L - a) = L := by ring
    rw [h4] at h3
    have h5 := (normalizeDeg_equiv _).trans h3
    exact congrArg some
      (h5.eq_of_mem_Ico (normalizeDeg_nonneg _) (normalizeDeg_lt _) hL0 hL1)
  · intro rf anch sAD rflip aflip L a wz sz d sc hd hsc hL0 hL1
    have hscv : sc.getD 1 = 1 := by rcases hsc with rfl | rfl <;> rfl
    have hdv : ∃ dv : ℚ, dirNum d = some dv ∧ (dv = 1 ∨ dv = -1) := by
      rcases hd with hd | hd
      · exact ⟨1, hd, Or.inl rfl⟩
      · exact ⟨-1, hd, Or.inr rfl⟩
    obtain ⟨dv, hd2, hdv2⟩ := hdv
    rw [worldToScreenAngle_zero rf anch sAD rflip aflip L wz sz a dv d sc hd2,
      Option.some_bind,
      screenToWorldLongitude_zero rf anch sAD rflip aflip _ wz sz a dv d sc hd2
        (by rw [hscv]; norm_num),
      hscv, mul_one, div_one, normalizeDeg_normalizeDeg]
    have hF : AngEquiv (narrowIf (normalizeDeg (L - wz))) (L - wz) :=
      (narrowIf_equiv _).trans (normalizeDeg_equiv _)
    have h1 := (normalizeDeg_equiv
      (sz + dv * narrowIf (normalizeDeg (L - wz)))).sub_right sz
    have h2 :
        sz + dv * narrowIf (normalizeDeg (L - wz)) - sz
          = dv * narrowIf (normalizeDeg (L - wz)) := by ring
    rw [h2] at h1
    have h3 := (narrowIf_equiv
      (normalizeDeg (sz + dv * narrowIf (normalizeDeg (L - wz))) - sz)).trans h1
    have h4 := h3.mul_pm hdv2
    have h5 : dv * narrowIf (normalizeDeg (L - wz)) * dv
        = narrowIf (normalizeDeg (L - wz)) := by
      rcases hdv2 with rfl | rfl <;> ring
    rw [h5] at h4
    have h6 := AngEquiv.add_left wz (h4.trans hF)
    have h7 : wz + (L - wz) = L := by ring
    rw [h7] at h6
    have h8 := (normalizeDeg_equiv _).trans h6
    exact congrArg some
      (h8.eq_of_mem_Ico (normalizeDeg_nonneg _) (normalizeDeg_lt _) hL0 hL1)

/-- Witness for C1: the round trip at concrete inputs, in both models. -/
theorem transform_roundtrip_witness :
    ((0:ℚ) ≤ 10 ∧ (10:ℚ) < 360)
    ∧ (worldToScreenAngle 10
          ⟨ReferenceFrame.houses, AnchorTargetUnion.angle AngleType.ASC,
            some 180, some Direction.ccw, none, some true, none, none, none⟩ 40).bind
        (fun s => screenToWorldLongitude s
          ⟨ReferenceFrame.houses, AnchorTargetUnion.angle AngleType.ASC,
            some 180, some Direction.ccw, none, some true, none, none, none⟩ 40)
      = some 10
    ∧ (worldToScreenAngle 10
          ⟨ReferenceFrame.ecliptic, AnchorTargetUnion.angle AngleType.MC,
            none, some Direction.neg, none, none, some 95, some 90, none⟩ 7).bind
        (fun s => screenToWorldLongitude s
          ⟨ReferenceFrame.ecliptic, AnchorTargetUnion.angle AngleType.MC,
            none, some Direction.neg, none, none, some 95, some 90, none⟩ 7)
      = some 10 :=
  ⟨⟨by norm_num, by norm_num⟩,
    transform_roundtrip.1 ReferenceFrame.houses
      (AnchorTargetUnion.angle AngleType.ASC) none 10 40 180 Direction.ccw true
      (Or.inr rfl) (by norm_num) (by norm_num),
    transform_roundtrip.2 ReferenceFrame.ecliptic
      (AnchorTargetUnion.angle AngleType.MC) none none none 10 7 95 90
      (some Direction.neg) none (Or.inr rfl) (Or.inl rfl)
      (by norm_num) (by norm_num)⟩

/-- C2: in the legacy model the anchor lands exactly at screenAngleDeg
(for screen positions already in the canonical [0,360) range), for every
direction and angularFlip setting; and the two concrete evaluations of
the spec scenario for the asc-left frame with anchorLongitude 95. -/
theorem legacy_anchor_fixed_point :
    (∀ (rf : ReferenceFrame) (anch : AnchorTargetUnion) (d : Option Direction)
        (rflip af : Option Bool) (sAD a : ℚ), 0 ≤ sAD → sAD < 360 →
        worldToScreenAngle a ⟨rf, anch, some sAD, d, rflip, af, none, none, none⟩ a
          = some sAD)
    ∧ worldToScreenAngle 95
        ⟨ReferenceFrame.houses, AnchorTargetUnion.angle AngleType.ASC,
          some 180, some Direction.ccw, none, none, none, none, none⟩ 95
        = some 180
    ∧ worldToScreenAngle 185
        ⟨ReferenceFrame.houses, AnchorTargetUnion.angle AngleType.ASC,
          some 180, some Direction.ccw, none, none, none, none, none⟩ 95
        = some 90 := by
  refine ⟨?_, ?_, ?_⟩
  · intro rf anch d rflip af sAD a h0 h1
    rw [worldToScreenAngle_legacy]
    have ho : wrapUp (wrapDown (a - a)) = 0 := by
      rw [sub_self, wrapDown_eq_of_le (by norm_num), wrapUp_eq_of_ge (by norm_num)]
    rw [ho]
    have hs : legacyScreen sAD d af 0 = sAD := by
      unfold legacyScreen
      by_cases hc : d = some Direction.ccw <;>
        by_cases haf : af.getD false = true <;> simp [hc, haf]
    rw [hs, normalizeDeg_eq_self h0 h1]
  · rw [worldToScreenAngle_legacy]
    have ho : wrapUp (wrapDown ((95:ℚ) - 95)) = 0 := by
      rw [sub_self, wrapDown_eq_of_le (by norm_num), wrapUp_eq_of_ge (by norm_num)]
    rw [ho]
    have hs : legacyScreen 180 (some Direction.ccw) none 0 = 180 := by
      unfold legacyScreen; norm_num
    rw [hs, normalizeDeg_eq_self (by norm_num) (by norm_num)]
  · rw [worldToScreenAngle_legacy]
    have hsub : (185:ℚ) - 95 = 90 := by norm_num
    rw [hsub, wrapDown_eq_of_le (by norm_num), wrapUp_eq_of_ge (by norm_num)]
    have hs : legacyScreen 180 (some Direction.ccw) none 90 = 90 := by
      unfold legacyScreen; norm_num
    rw [hs, normalizeDeg_eq_self (by norm_num) (by norm_num)]

/-- Witness for C2: the universal part applied at screenAngleDeg 270,
direction cw, angularFlip true, anchorLongitude 33. -/
theorem legacy_anchor_fixed_point_witness :
    ((0:ℚ) ≤ 270 ∧ (270:ℚ) < 360)
    ∧ worldToScreenAngle 33
        ⟨ReferenceFrame.ecliptic, AnchorTargetUnion.house 1,
          some 270, some Direction.cw, none, some true, none, none, none⟩ 33
      = some 270 :=
  ⟨⟨by norm_num, by norm_num⟩,
    legacy_anchor_fixed_point.1 ReferenceFrame.ecliptic (AnchorTargetUnion.house 1)
      (some Direction.cw) none (some true) 270 33 (by norm_num) (by norm_num)⟩

/-- C3: with worldZero and screenZero both set, worldToScreenAngle
computes normalize(screenZero + direction * shortestDelta(worldLongitude,
worldZero) * scale), with the direction factor defaulting to 1 and scale
defaulting to 1 when omitted; and the spec scenario frame (worldZero 95,
screenZero 90, direction -1, scale 1) maps 185 to 0 for every
anchorLongitude. -/
theorem worldToScreenAngle_zero_point_formula :
    (∀ (rf : ReferenceFrame) (anch : AnchorTargetUnion) (sAD : Option ℚ)
        (rflip aflip : Option Bool) (L wz sz a dv : ℚ) (d : Option Direction)
        (sc : Option ℚ), dirNum d = some dv →
        worldToScreenAngle L ⟨rf, anch, sAD, d, rflip, aflip, some wz, some sz, sc⟩ a
          = some (normalizeDeg (sz + dv * shortestDelta L wz * sc.getD 1)))
    ∧ ∀ (rf : ReferenceFrame) (anch : AnchorTargetUnion) (sAD : Option ℚ)
        (rflip aflip : Option Bool) (a : ℚ),
        worldToScreenAngle 185
            ⟨rf, anch, sAD, some Direction.neg, rflip, aflip, some 95, some 90, some 1⟩ a
          = some 0 := by
  constructor
  · intro rf anch sAD rflip aflip L wz sz a dv d sc hd
    rw [worldToScreenAngle_zero rf anch sAD rflip aflip L wz sz a dv d sc hd,
      narrowIf_normalizeDeg]
  · intro rf anch sAD rflip aflip a
    rw [worldToScreenAngle_zero rf anch sAD rflip aflip 185 95 90 a (-1)
        (some Direction.neg) (some 1) rfl,
      narrowIf_normalizeDeg]
    have hsd : shortestDelta 185 95 = 90 := by
      unfold shortestDelta
      norm_num
    rw [hsd]
    norm_num
    rw [normalizeDeg_eq_self (by norm_num) (by norm_num)]

/-- Witness for C3: the formula instance at a frame with direction
omitted and scale omitted (both defaulted). -/
theorem worldToScreenAngle_zero_point_formula_witness :
    dirNum none = some 1
    ∧ worldToScreenAngle 20
        ⟨ReferenceFrame.signs, AnchorTargetUnion.sign 0,
          none, none, none, none, some 300, some 45, none⟩ 3
      = some (normalizeDeg (45 + 1 * shortestDelta 20 300 * Option.getD none 1)) :=
  ⟨rfl,
    worldToScreenAngle_zero_point_formula.1 ReferenceFrame.signs
      (AnchorTargetUnion.sign 0) none none none 20 300 45 3 1 none none rfl⟩

/-! ## Lock rules (src/unnamed/part_002 types, part_003 lockRuleApplies) -/

inductive LockFrame
  | world | houses | signs | screen
deriving DecidableEq

inductive LockMode
  | exact | followAnchor
deriving DecidableEq

/-- Lock subjects: object ids are mandatory, the index / type lists of the
other kinds are optional (undefined meaning: lock all of that kind). -/
inductive LockSubject
  | object (ids : List AstroObjectId)
  | house (indices : Option (List ℕ))
  | sign (indices : Option (List ℕ))
  | angle (types : Option (List AngleType))
deriving DecidableEq

structure LockRule where
  subject : LockSubject
  frame : LockFrame
  mode : LockMode
  followAnchor : Option AnchorTargetUnion := none
deriving DecidableEq

inductive ElementKind
  | object | house | sign | angle
deriving DecidableEq

def lockSubjectKind : LockSubject → ElementKind
  | LockSubject.object _ => ElementKind.object
  | LockSubject.house _ => ElementKind.house
  | LockSubject.sign _ => ElementKind.sign
  | LockSubject.angle _ => ElementKind.angle

def angleTypeName : AngleType → String
  | AngleType.ASC => "ASC"
  | AngleType.DESC => "DESC"
  | AngleType.MC => "MC"
  | AngleType.IC => "IC"

/-- `lockRuleApplies` (part_003 lines 428-452).  The runtime elementId is
a number or a string (angle types are strings), modelled by
AstroObjectId; list membership is the strict-equality `includes`. -/
def lockRuleApplies (rule : LockRule) (elementType : ElementKind)
    (elementId : AstroObjectId) : Bool :=
  if lockSubjectKind rule.subject ≠ elementType then false
  else
    match rule.subject with
    | LockSubject.object ids => ids.contains elementId
    | LockSubject.house indices =>
        match indices with
        | none => true
        | some l => l.any (fun i => elementId == AstroObjectId.num (i : ℤ))
    | LockSubject.sign indices =>
        match indices with
        | none => true
        | some l => l.any (fun i => elementId == AstroObjectId.num (i : ℤ))
    | LockSubject.angle types =>
        match types with
        | none => true
        | some l => l.any (fun t => elementId == AstroObjectId.str (angleTypeName t))

/-- Counterexample for C5: a LockSubjectHouse with an explicitly empty
indices list matches no house at all (the code only treats an absent
list as a wildcard, an empty array is truthy), contradicting the claim
that an empty list matches every house. -/
theorem lockRuleApplies_empty_list_counterexample :
    lockRuleApplies
      ⟨LockSubject.house (some []), LockFrame.houses, LockMode.followAnchor, none⟩
      ElementKind.house (AstroObjectId.num 1) = false := by rfl

/-- C5 (amended): an absent index/type list is a wildcard matching every
element of the subject kind; an empty list matches nothing; indices
[1,10] match exactly houses 1 and 10; and a rule whose subject kind
differs from the element kind never applies. -/
theorem lockRuleApplies_matching :
    (∀ (fr : LockFrame) (m : LockMode) (e : AstroObjectId),
        lockRuleApplies ⟨LockSubject.house none, fr, m, none⟩
          ElementKind.house e = true)
    ∧ (∀ (fr : LockFrame) (m : LockMode) (e : AstroObjectId),
        lockRuleApplies ⟨LockSubject.sign none, fr, m, none⟩
          ElementKind.sign e = true)
    ∧ (∀ (fr : LockFrame) (m : LockMode) (e : AstroObjectId),
        lockRuleApplies ⟨LockSubject.angle none, fr, m, none⟩
          ElementKind.angle e = true)
    ∧ (∀ (fr : LockFrame) (m : LockMode) (e : AstroObjectId),
        lockRuleApplies ⟨LockSubject.house (some []), fr, m, none⟩
          ElementKind.house e = false)
    ∧ (∀ (fr : LockFrame) (m : LockMode) (n : ℤ),
        lockRuleApplies ⟨LockSubject.house (some [1, 10]), fr, m, none⟩
            ElementKind.house (AstroObjectId.num n) = true
          ↔ n = 1 ∨ n = 10)
    ∧ (∀ (r : LockRule) (k : ElementKind) (e : AstroObjectId),
        lockSubjectKind r.subject ≠ k → lockRuleApplies r k e = false) := by
  refine ⟨fun _ _ _ => rfl, fun _ _ _ => rfl, fun _ _ _ => rfl,
    fun _ _ _ => rfl, ?_, ?_⟩
  · intro fr m n
    simp [lockRuleApplies, lockSubjectKind]
  · intro r k e h
    unfold lockRuleApplies
    rw [if_pos h]

/-- Witness for C5: the [1,10] characterization at house 10 and house 3,
and the kind-mismatch clause for an object rule asked about a house. -/
theorem lockRuleApplies_matching_witness :
    (lockRuleApplies
        ⟨LockSubject.house (some [1, 10]), LockFrame.world, LockMode.exact, none⟩
        ElementKind.house (AstroObjectId.num 10) = true
      ↔ (10:ℤ) = 1 ∨ (10:ℤ) = 10)
    ∧ lockSubjectKind (LockSubject.object [AstroObjectId.num 0]) ≠ ElementKind.house
    ∧ lockRuleApplies
        ⟨LockSubject.object [AstroObjectId.num 0], LockFrame.screen,
          LockMode.exact, none⟩
        ElementKind.house (AstroObjectId.num 3) = false :=
  ⟨lockRuleApplies_matching.2.2.2.2.1 LockFrame.world LockMode.exact 10,
    by decide,
    lockRuleApplies_matching.2.2.2.2.2
      ⟨LockSubject.object [AstroObjectId.num 0], LockFrame.screen,
        LockMode.exact, none⟩
      ElementKind.house (AstroObjectId.num 3) (by decide)⟩

/-! ## Character-level string helpers

JavaScript renders numbers into strings (template literals, toString,
Array.join) and splits strings (String.split).  These are modelled on
`List Char`, with decimal rendering for integers exactly as JavaScript
produces it. -/

def decDigit (d : ℕ) : Char := Char.ofNat (48 + d)

def toDecAux : ℕ → ℕ → List Char
  | 0, _ => []
  | fuel + 1, n =>
      if n < 10 then [decDigit n]
      else toDecAux fuel (n / 10) ++ [decDigit (n % 10)]

/-- Decimal digit string of a natural number, most significant first. -/
def natChars (n : ℕ) : List Char := toDecAux (n + 1) n

/-- Decimal rendering of an integer, as JavaScript renders it. -/
def intChars (n : ℤ) : List Char :=
  if n < 0 then '-' :: natChars n.natAbs else natChars n.toNat

/-- Rendering of a rational: integral values render exactly as JavaScript
renders the corresponding number; non-integral values use a slash form
(numerator/denominator) that keeps the renderer injective.  Every number
this development renders through a JavaScript template or join is
integral. -/
def ratChars (q : ℚ) : List Char :=
  if q.den = 1 then intChars q.num else intChars q.num ++ '/' :: natChars q.den

/-- Value of a decimal digit string (the core of JavaScript Number on
plain digit strings). -/
def parseNat (cs : List Char) : ℕ :=
  cs.foldl (fun a c => 10 * a + (c.toNat - 48)) 0

/-- JavaScript `Number(s)` restricted to the strings version handling
feeds it: a nonempty all-digit string parses to its value, anything else
(empty string aside, which coerces to 0 downstream through `|| 0` exactly
as NaN does) is NaN, modelled as `none`. -/
def parseNatChars (cs : List Char) : Option ℕ :=
  if cs ≠ [] ∧ cs.all Char.isDigit then some (parseNat cs) else none

theorem decDigit_isDigit {d : ℕ} (h : d < 10) : (decDigit d).isDigit = true := by
  interval_cases d <;> rfl

theorem decDigit_toNat {d : ℕ} (h : d < 10) : (decDigit d).toNat = 48 + d := by
  interval_cases d <;> rfl

theorem toDecAux_ne_nil : ∀ fuel n, n < fuel → toDecAux fuel n ≠ [] := by
  intro fuel
  induction fuel with
  | zero => intro n h; omega
  | succ f _ =>
      intro n _
      unfold toDecAux
      by_cases h10 : n < 10
      · rw [if_pos h10]; simp
      · rw [if_neg h10]; simp

theorem toDecAux_digits : ∀ fuel n, n < fuel →
    ∀ c ∈ toDecAux fuel n, c.isDigit = true := by
  intro fuel
  induction fuel with
  | zero => intro n h; omega
  | succ f ih =>
      intro n hn c hc
      unfold toDecAux at hc
      by_cases h10 : n < 10
      · rw [if_pos h10] at hc
        simp at hc
        rw [hc]
        exact decDigit_isDigit h10
      · rw [if_neg h10] at hc
        rcases List.mem_append.mp hc with hm | hm
        · have hdiv : n / 10 < f := by
            have h1 : n / 10 < n := Nat.div_lt_self (by omega) (by norm_num)
            omega
          exact ih (n / 10) hdiv c hm
        · simp at hm
          rw [hm]
          exact decDigit_isDigit (Nat.mod_lt n (by norm_num))

theorem natChars_ne_nil (n : ℕ) : natChars n ≠ [] :=
  toDecAux_ne_nil (n + 1) n (Nat.lt_succ_self n)

theorem natChars_digits (n : ℕ) : ∀ c ∈ natChars n, c.isDigit = true :=
  toDecAux_digits (n + 1) n (Nat.lt_succ_self n)

theorem parseNat_toDecAux : ∀ fuel n acc, n < fuel →
    (toDecAux fuel n).foldl (fun a c => 10 * a + (c.toNat - 48)) acc
      = acc * 10 ^ (toDecAux fuel n).length + n := by
  intro fuel
  induction fuel with
  | zero => intro n acc h; omega
  | succ f ih =>
      intro n acc hn
      unfold toDecAux
      by_cases h10 : n < 10
      · rw [if_pos h10]
        simp [List.foldl, decDigit_toNat h10]
        omega
      · rw [if_neg h10]
        have hdiv : n / 10 < f := by
          have h1 : n / 10 < n := Nat.div_lt_self (by omega) (by norm_num)
          omega
        rw [List.foldl_append, List.length_append]
        rw [ih (n / 10) acc hdiv]
        simp [List.foldl, decDigit_toNat (Nat.mod_lt n (show 0 < 10 by norm_num))]
        rw [pow_succ]
        have hmod := Nat.div_add_mod n 10
        ring_nf
        omega

theorem parseNat_natChars (n : ℕ) : parseNat (natChars n) = n := by
  unfold parseNat natChars
  rw [parseNat_toDecAux (n + 1) n 0 (Nat.lt_succ_self n)]
  omega

theorem natChars_injective {m n : ℕ} (h : natChars m = natChars n) : m = n := by
  have := parseNat_natChars m
  rw [h, parseNat_natChars n] at this
  omega

theorem parseNatChars_natChars (n : ℕ) : parseNatChars (natChars n) = some n := by
  unfold parseNatChars
  rw [if_pos ⟨natChars_ne_nil n, List.all_eq_true.mpr (natChars_digits n)⟩,
    parseNat_natChars]

/-! ### Splitting and joining -/

/-- `String.split` on a single-character separator, on char lists. -/
def splitOnChar (sep : Char) : List Char → List (List Char)
  | [] => [[]]
  | c :: cs =>
      if c = sep then [] :: splitOnChar sep cs
      else
        match splitOnChar sep cs with
        | [] => [[c]]
        | p :: ps => (c :: p) :: ps

/-- `Array.join` with a single-character separator, on char lists. -/
def joinSep (sep : Char) : List (List Char) → List Char
  | [] => []
  | [p] => p
  | p :: ps => p ++ sep :: joinSep sep ps

theorem splitOnChar_ne_nil (sep : Char) : ∀ l, splitOnChar sep l ≠ [] := by
  intro l
  induction l with
  | nil => simp [splitOnChar]
  | cons c cs ih =>
      rw [splitOnChar]
      by_cases hc : c = sep
      · rw [if_pos hc]; simp
      · rw [if_neg hc]
        match hr : splitOnChar sep cs with
        | [] => simp
        | p :: ps => simp

theorem splitOnChar_no_sep {sep : Char} : ∀ {l}, sep ∉ l →
    splitOnChar sep l = [l] := by
  intro l
  induction l with
  | nil => intro _; rfl
  | cons c cs ih =>
      intro h
      have hc : ¬ c = sep := fun he => h (he ▸ List.mem_cons_self c cs)
      have hcs : sep ∉ cs := fun hm => h (List.mem_cons_of_mem c hm)
      rw [splitOnChar, if_neg hc, ih hcs]

theorem splitOnChar_append {sep : Char} : ∀ {l₁} (l₂ : List Char), sep ∉ l₁ →
    splitOnChar sep (l₁ ++ sep :: l₂) = l₁ :: splitOnChar sep l₂ := by
  intro l₁
  induction l₁ with
  | nil =>
      intro l₂ _
      show splitOnChar sep (sep :: l₂) = [] :: splitOnChar sep l₂
      rw [splitOnChar, if_pos rfl]
  | cons c cs ih =>
      intro l₂ h
      have hc : ¬ c = sep := fun he => h (he ▸ List.mem_cons_self c cs)
      have hcs : sep ∉ cs := fun hm => h (List.mem_cons_of_mem c hm)
      show splitOnChar sep (c :: (cs ++ sep :: l₂)) = (c :: cs) :: splitOnChar sep l₂
      rw [splitOnChar, if_neg hc, ih l₂ hcs]

/-- Two joins of nonempty separator-free parts agree only when the part
lists agree. -/
theorem append_sep_inj {sep : Char} : ∀ {p1 p2 t1 t2 : List Char},
    sep ∉ p1 → sep ∉ p2 → p1 ++ sep :: t1 = p2 ++ sep :: t2 →
    p1 = p2 ∧ t1 = t2 := by
  intro p1
  induction p1 with
  | nil =>
      intro p2 t1 t2 _ h2 heq
      cases p2 with
      | nil => simpa using heq
      | cons d ds =>
          simp at heq
          exact absurd (heq.1 ▸ List.mem_cons_self d ds) h2
  | cons c cs ih =>
      intro p2 t1 t2 h1 h2 heq
      cases p2 with
      | nil =>
          simp at heq
          exact absurd (heq.1 ▸ List.mem_cons_self c cs) h1
      | cons d ds =>
          simp at heq
          obtain ⟨hcd, hrest⟩ := heq
          have h1' : sep ∉ cs := fun hm => h1 (List.mem_cons_of_mem c hm)
          have h2' : sep ∉ ds := fun hm => h2 (List.mem_cons_of_mem d hm)
          obtain ⟨hp, ht⟩ := ih h1' h2' hrest
          exact ⟨by rw [hcd, hp], ht⟩

theorem joinSep_inj {sep : Char} : ∀ {L1 L2 : List (List Char)},
    (∀ p ∈ L1, p ≠ [] ∧ sep ∉ p) → (∀ p ∈ L2, p ≠ [] ∧ sep ∉ p) →
    joinSep sep L1 = joinSep sep L2 → L1 = L2 := by
  intro L1
  induction L1 with
  | nil =>
      intro L2 _ hw2 heq
      cases L2 with
      | nil => rfl
      | cons p ps =>
          exfalso
          cases ps with
          | nil =>
              have hp : joinSep sep [p] = p := rfl
              rw [hp] at heq
              exact (hw2 p (by simp)).1 heq.symm
          | cons q qs =>
              have he : joinSep sep (p :: q :: qs)
                  = p ++ sep :: joinSep sep (q :: qs) := rfl
              have h0 : joinSep sep ([] : List (List Char)) = [] := rfl
              rw [he, h0] at heq
              simp at heq
  | cons p ps ih =>
      intro L2 hw1 hw2 heq
      cases ps with
      | nil =>
          cases L2 with
          | nil =>
              exact absurd heq (by simpa using (hw1 p (by simp)).1)
          | cons q qs =>
              cases qs with
              | nil =>
                  have : p = q := heq
                  rw [this]
              | cons r rs =>
                  exfalso
                  have he2 : joinSep sep (q :: r :: rs)
                      = q ++ sep :: joinSep sep (r :: rs) := rfl
                  have hp : joinSep sep [p] = p := rfl
                  rw [hp, he2] at heq
                  have : sep ∈ p := by
                    rw [heq]
                    exact List.mem_append.mpr (Or.inr (List.mem_cons_self _ _))
                  exact (hw1 p (by simp)).2 this
      | cons q qs =>
          cases L2 with
          | nil =>
              exfalso
              have he1 : joinSep sep (p :: q :: qs)
                  = p ++ sep :: joinSep sep (q :: qs) := rfl
              have h0 : joinSep sep ([] : List (List Char)) = [] := rfl
              rw [he1, h0] at heq
              simp at heq
          | cons r rs =>
              cases rs with
              | nil =>
                  exfalso
                  have he1 : joinSep sep (p :: q :: qs)
                      = p ++ sep :: joinSep sep (q :: qs) := rfl
                  have hr : joinSep sep [r] = r := rfl
                  rw [he1, hr] at heq
                  have : sep ∈ r := by
                    rw [← heq]
                    exact List.mem_append.mpr (Or.inr (List.mem_cons_self _ _))
                  exact (hw2 r (by simp)).2 this
              | cons u us =>
                  have he1 : joinSep sep (p :: q :: qs)
                      = p ++ sep :: joinSep sep (q :: qs) := rfl
                  have he2 : joinSep sep (r :: u :: us)
                      = r ++ sep :: joinSep sep (u :: us) := rfl
                  rw [he1, he2] at heq
                  obtain ⟨hpr, hrest⟩ :=
                    append_sep_inj (hw1 p (by simp)).2 (hw2 r (by simp)).2 heq
                  have hrec := ih (fun x hx => hw1 x (List.mem_cons_of_mem p hx))
                    (fun x hx => hw2 x (List.mem_cons_of_mem r hx)) hrest
                  rw [hpr, hrec]

/-! ## Wheel definitions (src/src/wheels/types.ts)

The styling payloads (config, displayOptions, defaultVisualConfig,
defaultGlyphConfig) are open string-keyed records not touched by any
claim; they are not modelled. -/

inductive RingType
  | signs | houses | planets | aspects
deriving DecidableEq

structure AspectSetFilter where
  includeTypes : Option (List String) := none
  minStrength : Option ℚ := none
  onlyMajor : Option Bool := none
deriving DecidableEq

inductive RingDataSource
  | static_zodiac
  | static_nakshatras
  | layer_houses (layerId : String)
  | layer_planets (layerId : String)
  | layer_varga_planets (layerId : String) (vargaId : String)
  | aspect_set (aspectSetId : String) (filter : Option AspectSetFilter)
deriving DecidableEq

structure RingDefinition where
  slug : String
  type : RingType
  label : String
  orderIndex : ℚ
  radiusInner : ℚ
  radiusOuter : ℚ
  dataSource : RingDataSource
deriving DecidableEq

/-- WheelDefinition together with the WheelDefinitionWithPresets
metadata fields (version, author, tags). -/
structure WheelDefinitionWithPresets where
  name : String
  description : Option String := none
  rings : List RingDefinition
  version : Option String := none
  author : Option String := none
  tags : Option (List String) := none
deriving DecidableEq

/-- The built-in standardNatal definition
(src/src/wheels/definitions/standardNatal.ts). -/
def standardNatal : WheelDefinitionWithPresets where
  name := "Standard Natal Wheel"
  description := some "Default wheel with signs, houses, and planets"
  version := some "1.0.0"
  author := some "Gaia Tools"
  tags := some ["natal", "standard", "default"]
  rings := [
    { slug := "ring_signs", type := RingType.signs, label := "Zodiac Signs",
      orderIndex := 0, radiusInner := 85/100, radiusOuter := 1,
      dataSource := RingDataSource.static_zodiac },
    { slug := "ring_houses", type := RingType.houses, label := "Houses",
      orderIndex := 1, radiusInner := 75/100, radiusOuter := 85/100,
      dataSource := RingDataSource.layer_houses "natal" },
    { slug := "ring_planets", type := RingType.planets, label := "Natal Planets",
      orderIndex := 2, radiusInner := 55/100, radiusOuter := 75/100,
      dataSource := RingDataSource.layer_planets "natal" }]

/-! ## Registry (src/src/wheels/registry.ts) -/

/-- `replace(/\s+/g, '-')`: every maximal whitespace run becomes one
hyphen.  The flag records whether the previous character was part of a
run already replaced. -/
def collapseWsAux : Bool → List Char → List Char
  | _, [] => []
  | prevWs, c :: cs =>
      if c.isWhitespace then
        if prevWs then collapseWsAux true cs
        else '-' :: collapseWsAux true cs
      else c :: collapseWsAux false cs

/-- `normalizeWheelName`: lowercase, whitespace runs to hyphens.  The
names this development evaluates are ASCII, where Char.toLower agrees
with the JavaScript toLowerCase. -/
def normalizeWheelName (name : String) : String :=
  ⟨collapseWsAux false (name.data.map Char.toLower)⟩

/-- The module-level userDefinitions map, modelled as explicit state: an
association list with Map.set replace-or-append semantics. -/
def RegistryState : Type := List (String × WheelDefinitionWithPresets)

def mapSet : List (String × WheelDefinitionWithPresets) → String →
    WheelDefinitionWithPresets → List (String × WheelDefinitionWithPresets)
  | [], k, v => [(k, v)]
  | (k0, v0) :: rest, k, v =>
      if k0 = k then (k, v) :: rest else (k0, v0) :: mapSet rest k v

def mapGet : List (String × WheelDefinitionWithPresets) → String →
    Option WheelDefinitionWithPresets
  | [], _ => none
  | (k0, v0) :: rest, k => if k0 = k then some v0 else mapGet rest k

def registerWheelDefinition (reg : RegistryState)
    (definition : WheelDefinitionWithPresets) : RegistryState :=
  mapSet reg (normalizeWheelName definition.name) definition

/-- `getWheelDefinition`: user definitions first, then the built-in
switch. -/
def getWheelDefinition (reg : RegistryState) (name : String) :
    Option WheelDefinitionWithPresets :=
  match mapGet reg (normalizeWheelName name) with
  | some d => some d
  | none =>
      if normalizeWheelName name = "standard-natal-wheel" then some standardNatal
      else none

theorem mapGet_mapSet_self : ∀ (m : List (String × WheelDefinitionWithPresets))
    (k : String) (v : WheelDefinitionWithPresets),
    mapGet (mapSet m k v) k = some v := by
  intro m k v
  induction m with
  | nil => simp [mapSet, mapGet]
  | cons kv rest ih =>
      obtain ⟨k0, v0⟩ := kv
      rw [mapSet]
      by_cases hk : k0 = k
      · rw [if_pos hk, mapGet, if_pos rfl]
      · rw [if_neg hk, mapGet, if_neg hk, ih]

/-- C9: lookup is case- and space-insensitive and user registrations take
precedence over built-ins: after registering any definition named
"Standard Natal Wheel", looking up "standard natal wheel" returns that
definition (not the built-in standardNatal). -/
theorem registry_precedence (reg : RegistryState)
    (d : WheelDefinitionWithPresets) (hname : d.name = "Standard Natal Wheel") :
    getWheelDefinition (registerWheelDefinition reg d) "standard natal wheel"
      = some d := by
  unfold getWheelDefinition registerWheelDefinition
  rw [hname]
  have he : normalizeWheelName "standard natal wheel"
      = normalizeWheelName "Standard Natal Wheel" := by decide
  rw [he, mapGet_mapSet_self]

/-- Witness for C9: a concrete user wheel shadowing the built-in. -/
theorem registry_precedence_witness :
    (WheelDefinitionWithPresets.name
        { name := "Standard Natal Wheel", rings := [], version := some "2.0.0" }
      = "Standard Natal Wheel")
    ∧ getWheelDefinition
        (registerWheelDefinition []
          { name := "Standard Natal Wheel", rings := [], version := some "2.0.0" })
        "standard natal wheel"
      = some { name := "Standard Natal Wheel", rings := [], version := some "2.0.0" }
    ∧ ({ name := "Standard Natal Wheel", rings := [], version := some "2.0.0" }
        : WheelDefinitionWithPresets) ≠ standardNatal :=
  ⟨rfl,
    registry_precedence []
      { name := "Standard Natal Wheel", rings := [], version := some "2.0.0" } rfl,
    by decide⟩

/-! ## Versioning (src/src/wheels/versioning.ts) -/

/-- `isValidVersion`: the regex `\d+\.\d+\.\d+` anchored at both ends,
equivalently: splitting on dots yields exactly three nonempty all-digit
parts. -/
def isValidVersion (version : String) : Bool :=
  (splitOnChar '.' version.data).length == 3 &&
    (splitOnChar '.' version.data).all (fun p => !p.isEmpty && p.all Char.isDigit)

/-- `Number` applied to one dot-separated part, `none` for NaN (see
parseNatChars). -/
def jsNumOfPart (p : List Char) : Option ℚ :=
  (parseNatChars p).map (fun n => (n : ℚ))

/-- The tail of the comparison loop of compareVersions once the first
version has run out of parts: each remaining part of the second version
is compared against the default 0. -/
def cmpTailRight : List (Option ℚ) → ℤ
  | [] => 0
  | q :: qs =>
      if (0:ℚ) < q.getD 0 then -1
      else if q.getD 0 < 0 then 1
      else cmpTailRight qs

/-- The comparison loop of compareVersions: walk both part lists to the
longer length, `parts[i] || 0` defaulting both missing entries and NaN
to 0, returning at the first strict difference. -/
def cmpParts : List (Option ℚ) → List (Option ℚ) → ℤ
  | [], qs => cmpTailRight qs
  | p :: ps, [] =>
      if p.getD 0 < 0 then -1
      else if (0:ℚ) < p.getD 0 then 1
      else cmpParts ps []
  | p :: ps, q :: qs =>
      if p.getD 0 < q.getD 0 then -1
      else if q.getD 0 < p.getD 0 then 1
      else cmpParts ps qs

def compareVersions (v1 v2 : String) : ℤ :=
  cmpParts ((splitOnChar '.' v1.data).map jsNumOfPart)
    ((splitOnChar '.' v2.data).map jsNumOfPart)

/-- A number interpolated into a template literal; NaN renders as the
three characters NaN. -/
def jsNumRender : Option ℚ → List Char
  | some q => ratChars q
  | none => ['N', 'a', 'N']

/-- `getNextVersion` (migration.ts lines 137-144): split, map Number,
require three parts, increment the patch part, re-render. -/
def getNextVersion (version : String) : Option String :=
  match (splitOnChar '.' version.data).map jsNumOfPart with
  | [p0, p1, p2] =>
      some ⟨jsNumRender p0 ++ '.' :: jsNumRender p1 ++ '.'
              :: jsNumRender (p2.map (fun x => x + 1))⟩
  | _ => none

/-! ## Migration (src/src/wheels/migration.ts) -/

/-- A registered migration function; `Except.error` models a thrown
error with its message. -/
def MigrationFunction : Type :=
  WheelDefinitionWithPresets → Except String WheelDefinitionWithPresets

structure MigrationResult where
  success : Bool
  migrated : Option WheelDefinitionWithPresets := none
  errors : List String := []
deriving DecidableEq

/-- The module-level migrations map keyed by the string
`fromVersion->toVersion`; an unregistered key is the empty list (the
code treats a missing entry and an empty array identically). -/
def Migrations : Type := String → List MigrationFunction

def applyMigrations : List MigrationFunction → WheelDefinitionWithPresets →
    Except String WheelDefinitionWithPresets
  | [], d => Except.ok d
  | f :: fs, d =>
      match f d with
      | Except.ok d2 => applyMigrations fs d2
      | Except.error e => Except.error e

/-- The `while (compareVersions(currentVersion, targetVersion) < 0)` loop
of migrateWheelDefinition, with explicit fuel: `none` means the loop has
not produced a result within `fuel` iterations (the JavaScript loop has
no other exit). -/
def migrateLoop (migs : Migrations) :
    ℕ → WheelDefinitionWithPresets → String → String →
    Option (WheelDefinitionWithPresets × List String)
  | 0, _, _, _ => none
  | fuel + 1, current, currentVersion, targetVersion =>
      if compareVersions currentVersion targetVersion < 0 then
        match getNextVersion currentVersion with
        | none =>
            some (current, ["Cannot determine next version after " ++ currentVersion])
        | some nextVersion =>
            match migs (currentVersion ++ "->" ++ nextVersion) with
            | [] =>
                migrateLoop migs fuel { current with version := some nextVersion }
                  nextVersion targetVersion
            | fns =>
                match applyMigrations fns current with
                | Except.ok c =>
                    migrateLoop migs fuel { c with version := some nextVersion }
                      nextVersion targetVersion
                | Except.error msg =>
                    some (current,
                      ["Migration failed for " ++ currentVersion ++ "->"
                        ++ nextVersion ++ ": " ++ msg])
      else some (current, [])

/-- `migrateWheelDefinition` (migration.ts lines 42-132).  The falsy
check on the version field covers both an absent version and the empty
string. -/
def migrateWheelDefinition (migs : Migrations) (fuel : ℕ)
    (definition : WheelDefinitionWithPresets) (targetVersion : String) :
    Option MigrationResult :=
  match definition.version with
  | none => some { success := false, errors := ["Wheel definition has no version"] }
  | some v =>
      if v = "" then
        some { success := false, errors := ["Wheel definition has no version"] }
      else if ¬ isValidVersion v then
        some { success := false, errors := ["Invalid source version format: " ++ v] }
      else if ¬ isValidVersion targetVersion then
        some { success := false,
               errors := ["Invalid target version format: " ++ targetVersion] }
      else if compareVersions v targetVersion = 0 then
        some { success := true, migrated := some definition }
      else if 0 < compareVersions v targetVersion then
        some { success := false,
               errors := ["Cannot migrate backwards from " ++ v ++ " to " ++ targetVersion] }
      else
        (migrateLoop migs fuel definition v targetVersion).map
          (fun p =>
            if p.2 ≠ [] then { success := false, errors := p.2 }
            else { success := true, migrated := some p.1 })

/-! ### Non-termination of the migration loop across minor versions -/

/-- The versions the loop walks through from 1.0.0 toward 1.1.0. -/
def mkPatchVer (n : ℕ) : String :=
  ⟨'1' :: '.' :: '0' :: '.' :: natChars n⟩

theorem dot_not_mem_natChars (n : ℕ) : '.' ∉ natChars n := by
  intro hm
  exact absurd (natChars_digits n _ hm) (by decide)

theorem splitOnChar_mkPatchVer (n : ℕ) :
    splitOnChar '.' (mkPatchVer n).data = [['1'], ['0'], natChars n] := by
  show splitOnChar '.' (['1'] ++ '.' :: (['0'] ++ '.' :: natChars n)) = _
  rw [splitOnChar_append _ (by decide), splitOnChar_append _ (by decide),
    splitOnChar_no_sep (dot_not_mem_natChars n)]

theorem jsNumOfPart_natChars (n : ℕ) :
    jsNumOfPart (natChars n) = some (n : ℚ) := by
  unfold jsNumOfPart
  rw [parseNatChars_natChars]
  rfl

theorem compareVersions_mkPatchVer (n : ℕ) :
    compareVersions (mkPatchVer n) "1.1.0" = -1 := by
  unfold compareVersions
  rw [splitOnChar_mkPatchVer]
  have h110 : splitOnChar '.' ("1.1.0".data) = [['1'], ['1'], ['0']] := by decide
  rw [h110]
  simp only [List.map]
  rw [jsNumOfPart_natChars]
  have h1 : jsNumOfPart ['1'] = some 1 := by decide
  have h0 : jsNumOfPart ['0'] = some 0 := by decide
  rw [h1, h0]
  simp only [cmpParts, Option.getD_some]
  norm_num

/-- Comparing two patch-step versions compares their patch numbers. -/
theorem compareVersions_mkPatchVer_pair (n m : ℕ) :
    compareVersions (mkPatchVer n) (mkPatchVer m)
      = if n < m then -1 else if m < n then 1 else 0 := by
  unfold compareVersions
  rw [splitOnChar_mkPatchVer, splitOnChar_mkPatchVer]
  simp only [List.map]
  rw [jsNumOfPart_natChars, jsNumOfPart_natChars]
  have h1 : jsNumOfPart ['1'] = some 1 := by decide
  have h0 : jsNumOfPart ['0'] = some 0 := by decide
  rw [h1, h0]
  simp only [cmpParts, cmpTailRight, Option.getD_some]
  norm_num [Nat.cast_lt]

theorem ratChars_natCast (n : ℕ) : ratChars ((n : ℕ) : ℚ) = natChars n := by
  unfold ratChars
  rw [Rat.den_natCast, if_pos rfl, Rat.num_natCast]
  unfold intChars
  rw [if_neg (by exact_mod_cast Int.not_lt.mpr (Int.natCast_nonneg n)),
    Int.toNat_natCast]

theorem getNextVersion_mkPatchVer (n : ℕ) :
    getNextVersion (mkPatchVer n) = some (mkPatchVer (n + 1)) := by
  unfold getNextVersion
  rw [splitOnChar_mkPatchVer]
  simp only [List.map]
  rw [jsNumOfPart_natChars]
  have h1 : jsNumOfPart ['1'] = some 1 := by decide
  have h0 : jsNumOfPart ['0'] = some 0 := by decide
  rw [h1, h0]
  show some (⟨jsNumRender (some 1) ++ '.' :: jsNumRender (some 0) ++ '.'
      :: jsNumRender ((some ((n : ℕ) : ℚ)).map (fun x => x + 1))⟩ : String)
    = some (mkPatchVer (n + 1))
  have hmap : (some ((n : ℕ) : ℚ)).map (fun x => x + 1)
      = some (((n + 1 : ℕ) : ℕ) : ℚ) := by
    simp only [Option.map_some']
    norm_cast
  rw [hmap]
  have hr1 : jsNumRender (some 1) = ['1'] := by decide
  have hr0 : jsNumRender (some 0) = ['0'] := by decide
  have hrn : jsNumRender (some (((n + 1 : ℕ) : ℕ) : ℚ)) = natChars (n + 1) := by
    unfold jsNumRender
    exact ratChars_natCast (n + 1)
  rw [hr1, hr0, hrn]
  rfl

theorem migrateLoop_minor_gap_none :
    ∀ (fuel : ℕ) (cur : WheelDefinitionWithPresets) (n : ℕ),
    migrateLoop (fun _ => []) fuel cur (mkPatchVer n) "1.1.0" = none := by
  intro fuel
  induction fuel with
  | zero => intro cur n; rfl
  | succ f ih =>
      intro cur n
      rw [migrateLoop]
      rw [if_pos (by rw [compareVersions_mkPatchVer]; norm_num)]
      rw [getNextVersion_mkPatchVer]
      exact ih { cur with version := some (mkPatchVer (n + 1)) } (n + 1)

/-- One iteration of the loop with an empty registry and a patch gap
still to close: the version advances one patch step. -/
theorem migrateLoop_empty_step (fuel : ℕ) (cur : WheelDefinitionWithPresets)
    (n m : ℕ) (h : n < m) :
    migrateLoop (fun _ => []) (fuel + 1) cur (mkPatchVer n) (mkPatchVer m)
      = migrateLoop (fun _ => []) fuel
          { cur with version := some (mkPatchVer (n + 1)) }
          (mkPatchVer (n + 1)) (mkPatchVer m) := by
  rw [migrateLoop,
    if_pos (by rw [compareVersions_mkPatchVer_pair, if_pos h]; norm_num),
    getNextVersion_mkPatchVer]

/-- Once the target patch version is reached the loop exits with no
errors. -/
theorem migrateLoop_empty_done (fuel : ℕ) (cur : WheelDefinitionWithPresets)
    (n : ℕ) :
    migrateLoop (fun _ => []) (fuel + 1) cur (mkPatchVer n) (mkPatchVer n)
      = some (cur, []) := by
  rw [migrateLoop, if_neg]
  rw [compareVersions_mkPatchVer_pair, if_neg (lt_irrefl n), if_neg (lt_irrefl n)]
  norm_num

/-- Counterexample for C8: a version gap with no registered migration
functions does not fail; the loop silently bumps the patch version one
step at a time and reports success. -/
theorem migration_gap_counterexample :
    (migrateWheelDefinition (fun _ => []) 3
        { name := "w", rings := [], version := some "1.0.0" } "1.0.2").map
        MigrationResult.success
      = some true := by
  have e0 : ("1.0.0" : String) = mkPatchVer 0 := by decide
  have e2 : ("1.0.2" : String) = mkPatchVer 2 := by decide
  show ((migrateLoop (fun _ => []) 3
      { name := "w", rings := [], version := some "1.0.0" } "1.0.0" "1.0.2").map
        (fun p =>
          if p.2 ≠ [] then { success := false, errors := p.2 }
          else { success := true, migrated := some p.1 })).map
      MigrationResult.success
    = some true
  rw [e0, e2, migrateLoop_empty_step 2 _ 0 2 (by norm_num),
    migrateLoop_empty_step 1 _ 1 2 (by norm_num), migrateLoop_empty_done 0 _ 2]
  rfl

/-- C8 (amended): migrating backwards is reported as a structured
failure result (success false plus an error message), never a thrown
fault; but a patch-version gap with no registered migration functions
succeeds silently, bumping the version step by step, rather than
failing. -/
theorem migration_error_reporting :
    (∀ (migs : Migrations) (fuel : ℕ) (d : WheelDefinitionWithPresets)
        (v t : String),
        d.version = some v → isValidVersion v = true → isValidVersion t = true →
        0 < compareVersions v t →
        migrateWheelDefinition migs fuel d t
          = some { success := false, migrated := none,
                   errors := ["Cannot migrate backwards from " ++ v ++ " to " ++ t] })
    ∧ migrateWheelDefinition (fun _ => []) 3
        { name := "w", rings := [], version := some "1.0.0" } "1.0.2"
      = some { success := true,
               migrated := some { name := "w", rings := [], version := some "1.0.2" },
               errors := [] } := by
  constructor
  · intro migs fuel d v t hv hvv hvt hcmp
    have hne : ¬ v = "" := by
      intro h
      rw [h] at hvv
      exact absurd hvv (by decide)
    obtain ⟨nm, ds, rg, ver, au, tg⟩ := d
    change ver = some v at hv
    subst hv
    show (if v = "" then _ else _) = _
    rw [if_neg hne, if_neg (not_not_intro hvv), if_neg (not_not_intro hvt),
      if_neg (show ¬ compareVersions v t = 0 by omega), if_pos hcmp]
  · have e0 : ("1.0.0" : String) = mkPatchVer 0 := by decide
    have e2 : ("1.0.2" : String) = mkPatchVer 2 := by decide
    show (migrateLoop (fun _ => []) 3
        { name := "w", rings := [], version := some "1.0.0" } "1.0.0" "1.0.2").map
          (fun p =>
            if p.2 ≠ [] then ({ success := false, errors := p.2 } : MigrationResult)
            else { success := true, migrated := some p.1 })
      = some { success := true,
               migrated := some { name := "w", rings := [], version := some "1.0.2" },
               errors := [] }
    rw [e0, e2, migrateLoop_empty_step 2 _ 0 2 (by norm_num),
      migrateLoop_empty_step 1 _ 1 2 (by norm_num), migrateLoop_empty_done 0 _ 2]
    rfl

/-- Witness for C8: the backwards part applied at source 2.0.0, target
1.0.0, with an empty migration registry. -/
theorem migration_error_reporting_witness :
    (WheelDefinitionWithPresets.version
        { name := "w", rings := [], version := some "2.0.0" } = some "2.0.0")
    ∧ isValidVersion "2.0.0" = true ∧ isValidVersion "1.0.0" = true
    ∧ 0 < compareVersions "2.0.0" "1.0.0"
    ∧ migrateWheelDefinition (fun _ => []) 5
        { name := "w", rings := [], version := some "2.0.0" } "1.0.0"
      = some { success := false, migrated := none,
               errors := ["Cannot migrate backwards from 2.0.0 to 1.0.0"] } :=
  ⟨rfl, by decide, by decide, by decide,
    migration_error_reporting.1 (fun _ => []) 5
      { name := "w", rings := [], version := some "2.0.0" } "2.0.0" "1.0.0"
      rfl (by decide) (by decide) (by decide)⟩

/-- C10 is false of the code: migrating from 1.0.0 to 1.1.0 never
returns.  The loop advances only by incrementing the patch component
(1.0.1, 1.0.2, ...), each such version still compares below 1.1.0, and
getNextVersion always succeeds, so no exit is ever taken: for every
iteration bound the fueled model of the loop has not produced a
result. -/
theorem migration_minor_gap_nontermination (fuel : ℕ) :
    migrateWheelDefinition (fun _ => []) fuel
      { name := "w", rings := [], version := some "1.0.0" } "1.1.0" = none := by
  have h00 : ("1.0.0" : String) = mkPatchVer 0 := by decide
  show (migrateLoop (fun _ => []) fuel
      { name := "w", rings := [], version := some "1.0.0" } "1.0.0" "1.1.0").map _
    = none
  rw [h00, migrateLoop_minor_gap_none]
  rfl

/-! ## viewFrameToKey (src/unnamed/part_003, lines 457-485) -/

def refFrameChars : ReferenceFrame → List Char
  | ReferenceFrame.ecliptic => "ecliptic".data
  | ReferenceFrame.houses => "houses".data
  | ReferenceFrame.signs => "signs".data
  | ReferenceFrame.angles => "angles".data

def anchorKindChars : AnchorTargetUnion → List Char
  | AnchorTargetUnion.object _ => "object".data
  | AnchorTargetUnion.house _ => "house".data
  | AnchorTargetUnion.sign _ => "sign".data
  | AnchorTargetUnion.angle _ => "angle".data

/-- `String(anchor.id)`. -/
def astroObjectIdChars : AstroObjectId → List Char
  | AstroObjectId.num n => intChars n
  | AstroObjectId.str s => s.data

/-- `anchorTargetToKey`. -/
def anchorTargetToKeyChars : AnchorTargetUnion → List Char
  | AnchorTargetUnion.object id => astroObjectIdChars id
  | AnchorTargetUnion.house i => natChars i
  | AnchorTargetUnion.sign i => natChars i
  | AnchorTargetUnion.angle t => (angleTypeName t).data

/-- The direction entry of the parts array after `filter(Boolean)` and
join: an undefined direction is falsy and dropped (empty here), the
strings cw and ccw survive, the numbers 1 and -1 are truthy and join as
their decimal renderings. -/
def dirChars : Option Direction → List Char
  | none => []
  | some Direction.cw => "cw".data
  | some Direction.ccw => "ccw".data
  | some Direction.pos => ['1']
  | some Direction.neg => ['-', '1']

/-- The parts array of viewFrameToKey after `filter(Boolean)` (an empty
string is falsy and dropped). -/
def viewFrameKeyParts (frame : ViewFrame) (sAD : ℚ) : List (List Char) :=
  ([refFrameChars frame.referenceFrame,
    anchorKindChars frame.anchor ++ ':' :: anchorTargetToKeyChars frame.anchor,
    ratChars sAD,
    dirChars frame.direction,
    if frame.radialFlip.getD false then "rf".data else [],
    if frame.angularFlip.getD false then "af".data else []]).filter
    (fun p => !p.isEmpty)

/-- `viewFrameToKey`: joins the filtered parts with a pipe.  A frame
without screenAngleDeg throws (undefined.toString()), modelled as
`none`. -/
def viewFrameToKey (frame : ViewFrame) : Option String :=
  match frame.screenAngleDeg with
  | none => none
  | some sAD => some ⟨joinSep '|' (viewFrameKeyParts frame sAD)⟩

/-! ### Injectivity of the renderers -/

theorem intChars_ne_nil (n : ℤ) : intChars n ≠ [] := by
  unfold intChars
  by_cases h : n < 0
  · rw [if_pos h]; simp
  · rw [if_neg h]; exact natChars_ne_nil _

theorem ratChars_ne_nil (q : ℚ) : ratChars q ≠ [] := by
  unfold ratChars
  by_cases h : q.den = 1
  · rw [if_pos h]; exact intChars_ne_nil _
  · rw [if_neg h]
    intro he
    exact intChars_ne_nil q.num (List.append_eq_nil.mp he).1

theorem not_digit_not_mem_natChars {c : Char} (hc : c.isDigit = false)
    (n : ℕ) : c ∉ natChars n := by
  intro hm
  rw [natChars_digits n c hm] at hc
  exact Bool.true_eq_false.mp hc

theorem intChars_injective {a b : ℤ} (h : intChars a = intChars b) : a = b := by
  unfold intChars at h
  by_cases ha : a < 0 <;> by_cases hb : b < 0
  · rw [if_pos ha, if_pos hb] at h
    simp only [List.cons.injEq, true_and] at h
    have := natChars_injective h
    omega
  · rw [if_pos ha, if_neg hb] at h
    exfalso
    have hmem : '-' ∈ natChars b.toNat := h ▸ List.mem_cons_self '-' _
    exact not_digit_not_mem_natChars (by decide) _ hmem
  · rw [if_neg ha, if_pos hb] at h
    exfalso
    have hmem : '-' ∈ natChars a.toNat := h.symm ▸ List.mem_cons_self '-' _
    exact not_digit_not_mem_natChars (by decide) _ hmem
  · rw [if_neg ha, if_neg hb] at h
    have := natChars_injective h
    omega

theorem slash_not_mem_intChars (n : ℤ) : '/' ∉ intChars n := by
  unfold intChars
  by_cases h : n < 0
  · rw [if_pos h]
    intro hm
    rcases List.mem_cons.mp hm with he | hm2
    · exact absurd he (by decide)
    · exact not_digit_not_mem_natChars (by decide) _ hm2
  · rw [if_neg h]
    exact not_digit_not_mem_natChars (by decide) _

theorem pipe_not_mem_intChars (n : ℤ) : '|' ∉ intChars n := by
  unfold intChars
  by_cases h : n < 0
  · rw [if_pos h]
    intro hm
    rcases List.mem_cons.mp hm with he | hm2
    · exact absurd he (by decide)
    · exact not_digit_not_mem_natChars (by decide) _ hm2
  · rw [if_neg h]
    exact not_digit_not_mem_natChars (by decide) _

theorem pipe_not_mem_ratChars (q : ℚ) : '|' ∉ ratChars q := by
  unfold ratChars
  by_cases h : q.den = 1
  · rw [if_pos h]; exact pipe_not_mem_intChars _
  · rw [if_neg h]
    intro hm
    rcases List.mem_append.mp hm with hm1 | hm2
    · exact pipe_not_mem_intChars _ hm1
    · rcases List.mem_cons.mp hm2 with he | hm3
      · exact absurd he (by decide)
      · exact not_digit_not_mem_natChars (by decide) _ hm3

theorem ratChars_injective {p q : ℚ} (h : ratChars p = ratChars q) : p = q := by
  unfold ratChars at h
  by_cases hp : p.den = 1 <;> by_cases hq : q.den = 1
  · rw [if_pos hp, if_pos hq] at h
    have hnum := intChars_injective h
    exact Rat.ext hnum (hp.trans hq.symm)
  · rw [if_pos hp, if_neg hq] at h
    exfalso
    have : '/' ∈ intChars p.num :=
      h ▸ List.mem_append.mpr (Or.inr (List.mem_cons_self '/' _))
    exact slash_not_mem_intChars _ this
  · rw [if_neg hp, if_pos hq] at h
    exfalso
    have : '/' ∈ intChars q.num :=
      h.symm ▸ List.mem_append.mpr (Or.inr (List.mem_cons_self '/' _))
    exact slash_not_mem_intChars _ this
  · rw [if_neg hp, if_neg hq] at h
    obtain ⟨h1, h2⟩ :=
      append_sep_inj (slash_not_mem_intChars p.num) (slash_not_mem_intChars q.num) h
    exact Rat.ext (intChars_injective h1) (natChars_injective h2)

theorem dirChars_injective : ∀ {d1 d2 : Option Direction},
    dirChars d1 = dirChars d2 → d1 = d2 := by decide

theorem dirChars_ne_rf (d : Option Direction) : dirChars d ≠ "rf".data := by
  revert d; decide

theorem dirChars_ne_af (d : Option Direction) : dirChars d ≠ "af".data := by
  revert d; decide

/-- The trailing (direction, radialFlip, angularFlip) segment of the key
determines those settings: the flip tokens rf and af are distinct from
every possible direction token. -/
theorem optTail_inj (D1 D2 : List Char) (r1 a1 r2 a2 : Bool)
    (h1rf : D1 ≠ "rf".data) (h1af : D1 ≠ "af".data)
    (h2rf : D2 ≠ "rf".data) (h2af : D2 ≠ "af".data)
    (h : ([D1, if r1 then "rf".data else [], if a1 then "af".data else []]).filter
          (fun p => !p.isEmpty)
        = ([D2, if r2 then "rf".data else [], if a2 then "af".data else []]).filter
          (fun p => !p.isEmpty)) :
    D1 = D2 ∧ r1 = r2 ∧ a1 = a2 := by
  rcases D1 with _ | ⟨c1, t1⟩ <;> rcases D2 with _ | ⟨c2, t2⟩ <;>
    rcases r1 <;> rcases a1 <;> rcases r2 <;> rcases a2 <;>
      simp_all +decide [List.filter] <;>
        first
          | exact h2rf h.1.symm
          | exact h2af h.1.symm

theorem bnot_isEmpty_of_ne_nil {l : List Char} (h : l ≠ []) :
    (!l.isEmpty) = true := by
  cases l with
  | nil => exact absurd rfl h
  | cons c t => rfl

theorem cat_colon_bnot_isEmpty (x z : List Char) :
    (!(x ++ ':' :: z).isEmpty) = true := by
  cases x <;> rfl

theorem filter_ne_nil_cons {l : List (List Char)} {a : List Char} (h : a ≠ []) :
    (a :: l).filter (fun p => !p.isEmpty) = a :: l.filter (fun p => !p.isEmpty) := by
  cases a with
  | nil => exact absurd rfl h
  | cons c t => rfl

theorem refFrameChars_ne_nil : ∀ r : ReferenceFrame,
    refFrameChars r ≠ [] := by decide

theorem cat_colon_ne_nil (x z : List Char) : x ++ ':' :: z ≠ [] := by
  cases x <;> simp

theorem viewFrameKeyParts_decomp (f : ViewFrame) (s : ℚ) :
    viewFrameKeyParts f s
      = refFrameChars f.referenceFrame
        :: (anchorKindChars f.anchor ++ ':' :: anchorTargetToKeyChars f.anchor)
        :: ratChars s
        :: ([dirChars f.direction,
             if f.radialFlip.getD false then "rf".data else [],
             if f.angularFlip.getD false then "af".data else []]).filter
            (fun p => !p.isEmpty) := by
  unfold viewFrameKeyParts
  rw [filter_ne_nil_cons (refFrameChars_ne_nil f.referenceFrame),
    filter_ne_nil_cons (cat_colon_ne_nil _ _),
    filter_ne_nil_cons (ratChars_ne_nil s)]

/-- An anchor whose object id string contains no pipe character (the key
does not escape its parts; always true of the other anchor kinds). -/
def anchorPipeFree : AnchorTargetUnion → Prop
  | AnchorTargetUnion.object (AstroObjectId.str s) => '|' ∉ s.data
  | _ => True

theorem pipe_not_mem_refFrameChars : ∀ r : ReferenceFrame,
    '|' ∉ refFrameChars r := by decide

theorem pipe_not_mem_anchorKindChars (anch : AnchorTargetUnion) :
    '|' ∉ anchorKindChars anch := by
  cases anch <;> simp only [anchorKindChars] <;> decide

theorem pipe_not_mem_dirChars : ∀ d : Option Direction,
    '|' ∉ dirChars d := by decide

theorem pipe_not_mem_anchorTargetToKeyChars (anch : AnchorTargetUnion)
    (hp : anchorPipeFree anch) : '|' ∉ anchorTargetToKeyChars anch := by
  cases anch with
  | object id =>
      cases id with
      | num n => exact pipe_not_mem_intChars n
      | str s => exact hp
  | house i => exact not_digit_not_mem_natChars (by decide) i
  | sign i => exact not_digit_not_mem_natChars (by decide) i
  | angle t => cases t <;> decide

theorem keyParts_wf (f : ViewFrame) (s : ℚ) (hp : anchorPipeFree f.anchor) :
    ∀ p ∈ viewFrameKeyParts f s, p ≠ [] ∧ '|' ∉ p := by
  intro p hm
  unfold viewFrameKeyParts at hm
  rw [List.mem_filter] at hm
  obtain ⟨hmem, hne⟩ := hm
  refine ⟨?_, ?_⟩
  · intro he
    rw [he] at hne
    exact absurd hne (by decide)
  · simp only [List.mem_cons, List.not_mem_nil, or_false] at hmem
    rcases hmem with rfl | rfl | rfl | rfl | rfl | rfl
    · exact pipe_not_mem_refFrameChars f.referenceFrame
    · intro hm2
      rcases List.mem_append.mp hm2 with hk | hk
      · exact pipe_not_mem_anchorKindChars f.anchor hk
      · rcases List.mem_cons.mp hk with he | hk2
        · exact absurd he (by decide)
        · exact pipe_not_mem_anchorTargetToKeyChars f.anchor hp hk2
    · exact pipe_not_mem_ratChars s
    · exact pipe_not_mem_dirChars f.direction
    · split <;> decide
    · split <;> decide

/-- The angular transform reads only screenAngleDeg, direction,
angularFlip (through its default), worldZero, screenZero and scale. -/
theorem worldToScreenAngle_congr (f1 f2 : ViewFrame)
    (hA : f1.screenAngleDeg = f2.screenAngleDeg)
    (hd : f1.direction = f2.direction)
    (haf : f1.angularFlip.getD false = f2.angularFlip.getD false)
    (hwz : f1.worldZero = f2.worldZero) (hsz : f1.screenZero = f2.screenZero)
    (hsc : f1.scale = f2.scale) (L a : ℚ) :
    worldToScreenAngle L f1 a = worldToScreenAngle L f2 a := by
  obtain ⟨r1, an1, sA1, d1, rf1, af1, wz1, sz1, sc1⟩ := f1
  obtain ⟨r2, an2, sA2, d2, rf2, af2, wz2, sz2, sc2⟩ := f2
  simp only at hA hd haf hwz hsz hsc
  subst hA hd hwz hsz hsc
  unfold worldToScreenAngle
  simp only
  rw [haf]

/-- C4 (amended): two frames with the same key are transform-equivalent
provided they also agree on the zero-point fields worldZero, screenZero
and scale (which the key omits) and their anchor object ids contain no
pipe character (which the key does not escape). -/
theorem viewFrameToKey_transform_equiv (f1 f2 : ViewFrame) (k : String)
    (h1 : viewFrameToKey f1 = some k) (h2 : viewFrameToKey f2 = some k)
    (hwz : f1.worldZero = f2.worldZero) (hsz : f1.screenZero = f2.screenZero)
    (hsc : f1.scale = f2.scale)
    (hp1 : anchorPipeFree f1.anchor) (hp2 : anchorPipeFree f2.anchor)
    (L a : ℚ) :
    worldToScreenAngle L f1 a = worldToScreenAngle L f2 a := by
  rcases hA1 : f1.screenAngleDeg with _ | s1
  · unfold viewFrameToKey at h1
    rw [hA1] at h1
    exact Option.noConfusion h1
  rcases hA2 : f2.screenAngleDeg with _ | s2
  · unfold viewFrameToKey at h2
    rw [hA2] at h2
    exact Option.noConfusion h2
  unfold viewFrameToKey at h1 h2
  rw [hA1] at h1
  rw [hA2] at h2
  have hj : joinSep '|' (viewFrameKeyParts f1 s1)
      = joinSep '|' (viewFrameKeyParts f2 s2) :=
    congrArg String.data ((Option.some.inj h1).trans (Option.some.inj h2).symm)
  have hparts := joinSep_inj (keyParts_wf f1 s1 hp1) (keyParts_wf f2 s2 hp2) hj
  rw [viewFrameKeyParts_decomp, viewFrameKeyParts_decomp] at hparts
  simp only [List.cons.injEq] at hparts
  obtain ⟨-, -, hrat, htail⟩ := hparts
  obtain ⟨hdir, -, haf⟩ := optTail_inj _ _ _ _ _ _
    (dirChars_ne_rf _) (dirChars_ne_af _) (dirChars_ne_rf _) (dirChars_ne_af _)
    htail
  exact worldToScreenAngle_congr f1 f2
    (by rw [hA1, hA2, ratChars_injective hrat])
    (dirChars_injective hdir)
    (by rw [haf]) hwz hsz hsc L a

/-- Counterexample for C4: the key omits worldZero (and screenZero and
scale), so two frames with equal keys can disagree on the zero-point
transform: with worldZero 0 versus 10, longitude 90 maps to screen 90
versus 80 under the same key. -/
theorem viewFrameToKey_collision_counterexample :
    (viewFrameToKey
        ⟨ReferenceFrame.ecliptic, AnchorTargetUnion.angle AngleType.ASC,
          some 0, some Direction.pos, none, none, some 0, some 0, none⟩
      = viewFrameToKey
        ⟨ReferenceFrame.ecliptic, AnchorTargetUnion.angle AngleType.ASC,
          some 0, some Direction.pos, none, none, some 10, some 0, none⟩)
    ∧ worldToScreenAngle 90
        ⟨ReferenceFrame.ecliptic, AnchorTargetUnion.angle AngleType.ASC,
          some 0, some Direction.pos, none, none, some 0, some 0, none⟩ 0
      ≠ worldToScreenAngle 90
        ⟨ReferenceFrame.ecliptic, AnchorTargetUnion.angle AngleType.ASC,
          some 0, some Direction.pos, none, none, some 10, some 0, none⟩ 0 := by
  constructor
  · decide
  · have h1 : worldToScreenAngle 90
        ⟨ReferenceFrame.ecliptic, AnchorTargetUnion.angle AngleType.ASC,
          some 0, some Direction.pos, none, none, some 0, some 0, none⟩ 0
        = some 90 := by
      rw [worldToScreenAngle_zero ReferenceFrame.ecliptic
          (AnchorTargetUnion.angle AngleType.ASC) (some 0) none none 90 0 0 0 1
          (some Direction.pos) none rfl, narrowIf_normalizeDeg]
      have hsd : shortestDelta 90 0 = 90 := by
        unfold shortestDelta
        norm_num
      rw [hsd]
      norm_num
      rw [normalizeDeg_eq_self (by norm_num) (by norm_num)]
    have h2 : worldToScreenAngle 90
        ⟨ReferenceFrame.ecliptic, AnchorTargetUnion.angle AngleType.ASC,
          some 0, some Direction.pos, none, none, some 10, some 0, none⟩ 0
        = some 80 := by
      rw [worldToScreenAngle_zero ReferenceFrame.ecliptic
          (AnchorTargetUnion.angle AngleType.ASC) (some 0) none none 90 10 0 0 1
          (some Direction.pos) none rfl, narrowIf_normalizeDeg]
      have hsd : shortestDelta 90 10 = 80 := by
        unfold shortestDelta
        norm_num
      rw [hsd]
      norm_num
      rw [normalizeDeg_eq_self (by norm_num) (by norm_num)]
    rw [h1, h2]
    simp

/-- Witness for C4 (amended): two distinct frames (numeric object id 1
versus string object id "1") share the key ecliptic|object:1|90|cw and
are transform-equivalent. -/
theorem viewFrameToKey_transform_equiv_witness :
    (viewFrameToKey
        ⟨ReferenceFrame.ecliptic, AnchorTargetUnion.object (AstroObjectId.num 1),
          some 90, some Direction.cw, none, none, none, none, none⟩
      = some "ecliptic|object:1|90|cw")
    ∧ (viewFrameToKey
        ⟨ReferenceFrame.ecliptic, AnchorTargetUnion.object (AstroObjectId.str "1"),
          some 90, some Direction.cw, none, none, none, none, none⟩
      = some "ecliptic|object:1|90|cw")
    ∧ worldToScreenAngle 30
        ⟨ReferenceFrame.ecliptic, AnchorTargetUnion.object (AstroObjectId.num 1),
          some 90, some Direction.cw, none, none, none, none, none⟩ 40
      = worldToScreenAngle 30
        ⟨ReferenceFrame.ecliptic, AnchorTargetUnion.object (AstroObjectId.str "1"),
          some 90, some Direction.cw, none, none, none, none, none⟩ 40 :=
  ⟨by decide, by decide,
    viewFrameToKey_transform_equiv
      ⟨ReferenceFrame.ecliptic, AnchorTargetUnion.object (AstroObjectId.num 1),
        some 90, some Direction.cw, none, none, none, none, none⟩
      ⟨ReferenceFrame.ecliptic, AnchorTargetUnion.object (AstroObjectId.str "1"),
        some 90, some Direction.cw, none, none, none, none, none⟩
      "ecliptic|object:1|90|cw" (by decide) (by decide) rfl rfl rfl
      trivial (by show '|' ∉ "1".data; decide) 30 40⟩

/-! ## JSON loader validation (src/src/wheels/loader.ts)

The loader validates untyped parsed JSON, so the input is modelled as a
dynamic JSON value.  A thrown WheelDefinitionValidationError is modelled
as `Except.error`; JSON.parse itself is a platform builtin (whose
failure the loader also rethrows as a validation error) and the entry
point is modelled from the parsed value on. -/

inductive JsonValue
  | null
  | bool (b : Bool)
  | num (q : ℚ)
  | str (s : String)
  | arr (elements : List JsonValue)
  | obj (fields : List (String × JsonValue))

/-- JavaScript truthiness of a parsed JSON value. -/
def jsTruthy : JsonValue → Bool
  | JsonValue.null => false
  | JsonValue.bool b => b
  | JsonValue.num q => q ≠ 0
  | JsonValue.str s => s ≠ ""
  | JsonValue.arr _ => true
  | JsonValue.obj _ => true

/-- `typeof x === 'object'` (true of objects, arrays and null). -/
def isObjectType : JsonValue → Bool
  | JsonValue.null => true
  | JsonValue.arr _ => true
  | JsonValue.obj _ => true
  | _ => false

/-- Property access; `none` is undefined.  The properties the loader
reads never collide with array or primitive builtins. -/
def getProp : JsonValue → String → Option JsonValue
  | JsonValue.obj fields, k => (fields.find? (fun kv => kv.1 == k)).map (fun kv => kv.2)
  | _, _ => none

structure WheelDefinitionValidationError where
  message : String
  field : Option String := none
deriving DecidableEq

/-- `typeof v === 'string' && v` (a defined, nonempty string). -/
def checkNonEmptyString : Option JsonValue → Bool
  | some (JsonValue.str s) => !(s = "")
  | _ => false

/-- `typeof v === 'number'`, returning the number. -/
def checkNumber : Option JsonValue → Option ℚ
  | some (JsonValue.num q) => some q
  | _ => none

/-- `validateRingDefinition` (loader.ts lines 22-112): the checks in
source order, first failure thrown. -/
def validateRingDefinition (ring : JsonValue) (index : ℕ) :
    Except WheelDefinitionValidationError Unit :=
  let idx : String := ⟨natChars index⟩
  let base := "rings[" ++ idx ++ "]"
  if !jsTruthy ring || !isObjectType ring then
    Except.error ⟨"Ring at index " ++ idx ++ " must be an object", some base⟩
  else if !checkNonEmptyString (getProp ring "slug") then
    Except.error ⟨"Ring at index " ++ idx ++ " must have a non-empty slug",
      some (base ++ ".slug")⟩
  else if !(match getProp ring "type" with
            | some (JsonValue.str s) =>
                (["signs", "houses", "planets", "aspects"]).contains s
            | _ => false) then
    Except.error
      ⟨"Ring at index " ++ idx
          ++ " must have a valid type (signs, houses, planets, or aspects)",
        some (base ++ ".type")⟩
  else if !checkNonEmptyString (getProp ring "label") then
    Except.error ⟨"Ring at index " ++ idx ++ " must have a non-empty label",
      some (base ++ ".label")⟩
  else if (checkNumber (getProp ring "orderIndex")).isNone then
    Except.error ⟨"Ring at index " ++ idx ++ " must have a numeric orderIndex",
      some (base ++ ".orderIndex")⟩
  else
    match checkNumber (getProp ring "radiusInner") with
    | none =>
        Except.error
          ⟨"Ring at index " ++ idx ++ " must have a radiusInner between 0 and 1",
            some (base ++ ".radiusInner")⟩
    | some radiusInner =>
        if radiusInner < 0 ∨ radiusInner > 1 then
          Except.error
            ⟨"Ring at index " ++ idx ++ " must have a radiusInner between 0 and 1",
              some (base ++ ".radiusInner")⟩
        else
          match checkNumber (getProp ring "radiusOuter") with
          | none =>
              Except.error
                ⟨"Ring at index " ++ idx
                    ++ " must have a radiusOuter between 0 and 1",
                  some (base ++ ".radiusOuter")⟩
          | some radiusOuter =>
              if radiusOuter < 0 ∨ radiusOuter > 1 then
                Except.error
                  ⟨"Ring at index " ++ idx
                      ++ " must have a radiusOuter between 0 and 1",
                    some (base ++ ".radiusOuter")⟩
              else if radiusInner ≥ radiusOuter then
                Except.error
                  ⟨"Ring at index " ++ idx
                      ++ " must have radiusInner < radiusOuter",
                    some (base ++ ".radius")⟩
              else
                match getProp ring "dataSource" with
                | none =>
                    Except.error
                      ⟨"Ring at index " ++ idx ++ " must have a dataSource object",
                        some (base ++ ".dataSource")⟩
                | some ds =>
                    if !jsTruthy ds || !isObjectType ds then
                      Except.error
                        ⟨"Ring at index " ++ idx ++ " must have a dataSource object",
                          some (base ++ ".dataSource")⟩
                    else
                      match getProp ds "kind" with
                      | some (JsonValue.str kind) =>
                          if !((["static_zodiac", "layer_houses", "layer_planets",
                                "aspect_set"]).contains kind) then
                            Except.error
                              ⟨"Ring at index " ++ idx
                                  ++ " dataSource must have a valid kind",
                                some (base ++ ".dataSource.kind")⟩
                          else if (kind = "layer_houses" ∨ kind = "layer_planets")
                              ∧ !checkNonEmptyString (getProp ds "layerId") then
                            Except.error
                              ⟨"Ring at index " ++ idx
                                  ++ " dataSource must have a layerId for " ++ kind,
                                some (base ++ ".dataSource.layerId")⟩
                          else if kind = "aspect_set"
                              ∧ !checkNonEmptyString (getProp ds "aspectSetId") then
                            Except.error
                              ⟨"Ring at index " ++ idx
                                  ++ " dataSource must have an aspectSetId for aspect_set",
                                some (base ++ ".dataSource.aspectSetId")⟩
                          else Except.ok ()
                      | _ =>
                          Except.error
                            ⟨"Ring at index " ++ idx
                                ++ " dataSource must have a valid kind",
                              some (base ++ ".dataSource.kind")⟩

/-- `definition.rings.forEach(validateRingDefinition)`: the first thrown
error aborts the walk. -/
def validateRings : List JsonValue → ℕ →
    Except WheelDefinitionValidationError Unit
  | [], _ => Except.ok ()
  | r :: rest, i =>
      match validateRingDefinition r i with
      | Except.ok _ => validateRings rest (i + 1)
      | Except.error e => Except.error e

/-- The optional description / version / author / tags checks at the end
of validateWheelDefinition, in source order. -/
def validateOptionalFields (definition : JsonValue) :
    Except WheelDefinitionValidationError Unit :=
  match getProp definition "description" with
  | some (JsonValue.str _) | none =>
      match getProp definition "version" with
      | none => validateTailFields definition
      | some (JsonValue.str v) =>
          if !isValidVersion v then
            Except.error
              ⟨"Wheel definition version must be in format major.minor.patch (e.g., \"1.0.0\"), got: "
                  ++ v, some "version"⟩
          else validateTailFields definition
      | some _ =>
          Except.error ⟨"Wheel definition version must be a string", some "version"⟩
  | some _ =>
      Except.error
        ⟨"Wheel definition description must be a string", some "description"⟩
where
  validateTailFields (definition : JsonValue) :
      Except WheelDefinitionValidationError Unit :=
    match getProp definition "author" with
    | some (JsonValue.str _) | none =>
        match getProp definition "tags" with
        | none => Except.ok ()
        | some (JsonValue.arr tags) =>
            if !(tags.all fun t =>
                  match t with
                  | JsonValue.str _ => true
                  | _ => false) then
              Except.error
                ⟨"Wheel definition tags must be an array of strings", some "tags"⟩
            else Except.ok ()
        | some _ =>
            Except.error ⟨"Wheel definition tags must be an array", some "tags"⟩
    | some _ =>
        Except.error ⟨"Wheel definition author must be a string", some "author"⟩

/-- `validateWheelDefinition` (loader.ts lines 117-194). -/
def validateWheelDefinition (definition : JsonValue) :
    Except WheelDefinitionValidationError Unit :=
  if !jsTruthy definition || !isObjectType definition then
    Except.error ⟨"Wheel definition must be an object", none⟩
  else if !checkNonEmptyString (getProp definition "name") then
    Except.error ⟨"Wheel definition must have a non-empty name", some "name"⟩
  else
    match getProp definition "rings" with
    | some (JsonValue.arr rings) =>
        if rings.length = 0 then
          Except.error
            ⟨"Wheel definition must have at least one ring", some "rings"⟩
        else
          match validateRings rings 0 with
          | Except.error e => Except.error e
          | Except.ok _ => validateOptionalFields definition
    | _ =>
        Except.error ⟨"Wheel definition must have a rings array", some "rings"⟩

/-- `loadWheelDefinitionFromJSON` after JSON.parse: validates and returns
the parsed definition; a validation failure escapes as a thrown
WheelDefinitionValidationError (`Except.error`). -/
def loadWheelDefinition (parsed : JsonValue) :
    Except WheelDefinitionValidationError JsonValue :=
  match validateWheelDefinition parsed with
  | Except.ok _ => Except.ok parsed
  | Except.error e => Except.error e

/-- A ring definition JSON object that passes every check before the
radius-ordering comparison, with the two radii as parameters. -/
def mkRadiusRing (ri ro : ℚ) : JsonValue :=
  JsonValue.obj [
    ("slug", JsonValue.str "ring_signs"),
    ("type", JsonValue.str "signs"),
    ("label", JsonValue.str "Signs"),
    ("orderIndex", JsonValue.num 0),
    ("radiusInner", JsonValue.num ri),
    ("radiusOuter", JsonValue.num ro),
    ("dataSource", JsonValue.obj [("kind", JsonValue.str "static_zodiac")])]

/-- A wheel definition JSON object holding a single mkRadiusRing. -/
def mkRadiusWheel (ri ro : ℚ) : JsonValue :=
  JsonValue.obj [
    ("name", JsonValue.str "Bad Wheel"),
    ("rings", JsonValue.arr [mkRadiusRing ri ro])]

def radiusError : WheelDefinitionValidationError :=
  ⟨"Ring at index 0 must have radiusInner < radiusOuter", some "rings[0].radius"⟩

theorem validateRingDefinition_mkRadiusRing (ri ro : ℚ) :
    validateRingDefinition (mkRadiusRing ri ro) 0
      = (if ri < 0 ∨ ri > 1 then
           Except.error ⟨"Ring at index 0 must have a radiusInner between 0 and 1",
             some "rings[0].radiusInner"⟩
         else if ro < 0 ∨ ro > 1 then
           Except.error ⟨"Ring at index 0 must have a radiusOuter between 0 and 1",
             some "rings[0].radiusOuter"⟩
         else if ri ≥ ro then Except.error radiusError
         else Except.ok ()) := rfl

theorem validateWheelDefinition_mkRadiusWheel (ri ro : ℚ) :
    validateWheelDefinition (mkRadiusWheel ri ro)
      = (match validateRings [mkRadiusRing ri ro] 0 with
         | Except.error e => Except.error e
         | Except.ok _ => Except.ok ()) := rfl

/-- Counterexample for C7: loading the wheel whose only ring has
radiusInner 0.9 and radiusOuter 0.5 does fail citing rings[0].radius,
but the failure escapes the entry function as a thrown
WheelDefinitionValidationError (Except.error), not as a returned result
value. -/
theorem loader_throws_radius_counterexample :
    loadWheelDefinition (mkRadiusWheel (9/10) (1/2))
      = Except.error radiusError := by
  unfold loadWheelDefinition
  rw [validateWheelDefinition_mkRadiusWheel]
  have hring : validateRings [mkRadiusRing (9/10) (1/2)] 0
      = Except.error radiusError := by
    show (match validateRingDefinition (mkRadiusRing (9/10) (1/2)) 0 with
          | Except.ok _ => validateRings [] 1
          | Except.error e => Except.error e) = Except.error radiusError
    rw [validateRingDefinition_mkRadiusRing,
      if_neg (by push_neg; constructor <;> norm_num),
      if_neg (by push_neg; constructor <;> norm_num),
      if_pos (by norm_num)]
  rw [hring]

/-- C7 (amended): a ring whose radii are in range but with
radiusInner >= radiusOuter fails validation with a diagnostic citing
that ring's rings[i].radius field; the failure is delivered by THROWING
a WheelDefinitionValidationError from the entry function
(loadWheelDefinitionFromJSON), not as a returned result value. -/
theorem loader_radius_validation (ri ro : ℚ)
    (h1 : 0 ≤ ri) (h2 : ri ≤ 1) (h3 : 0 ≤ ro) (h4 : ro ≤ 1) (h5 : ro ≤ ri) :
    validateRingDefinition (mkRadiusRing ri ro) 0 = Except.error radiusError
    ∧ loadWheelDefinition (mkRadiusWheel ri ro) = Except.error radiusError := by
  have hring : validateRingDefinition (mkRadiusRing ri ro) 0
      = Except.error radiusError := by
    rw [validateRingDefinition_mkRadiusRing,
      if_neg (by push_neg; constructor <;> linarith),
      if_neg (by push_neg; constructor <;> linarith),
      if_pos (by linarith)]
  refine ⟨hring, ?_⟩
  unfold loadWheelDefinition
  rw [validateWheelDefinition_mkRadiusWheel]
  have hv : validateRings [mkRadiusRing ri ro] 0 = Except.error radiusError := by
    show (match validateRingDefinition (mkRadiusRing ri ro) 0 with
          | Except.ok _ => validateRings [] 1
          | Except.error e => Except.error e) = Except.error radiusError
    rw [hring]
  rw [hv]

/-- Witness for C7 (amended): the scenario radii 0.9 and 0.5. -/
theorem loader_radius_validation_witness :
    ((0:ℚ) ≤ 9/10 ∧ (9/10:ℚ) ≤ 1 ∧ (0:ℚ) ≤ 1/2 ∧ (1/2:ℚ) ≤ 1 ∧ (1/2:ℚ) ≤ 9/10)
    ∧ validateRingDefinition (mkRadiusRing (9/10) (1/2)) 0
        = Except.error radiusError
    ∧ loadWheelDefinition (mkRadiusWheel (9/10) (1/2))
        = Except.error radiusError :=
  ⟨⟨by norm_num, by norm_num, by norm_num, by norm_num, by norm_num⟩,
    (loader_radius_validation (9/10) (1/2) (by norm_num) (by norm_num)
      (by norm_num) (by norm_num) (by norm_num)).1,
    (loader_radius_validation (9/10) (1/2) (by norm_num) (by norm_num)
      (by norm_num) (by norm_num) (by norm_num)).2⟩

end Aphrodite
